import Mathlib

/-!
Verification of the GeenuFF GFF importer (`src/geenuff/applications/importer.py`)
against its natural-language specification.

The Python classes `OrganizedGeenuffImporterGroup`, `OrganizedGFFEntries`,
`OrganizedGFFEntryGroup`, `GFFErrorHandling` and the `*Importer` handler objects
are shallowly embedded below.  Mutable handler objects become immutable records
threaded through explicit state (a `List ImporterGroup`); Python `int` becomes
`Int`; Python dicts keyed by insertion order become association lists; GFF
feature-type enum values become their string values from `geenuff/base/types.py`.
Fields of the Python objects that no claim touches (database ids, `score`,
`source`, `given_name`, the insertion queues) are omitted.
-/

/-! ## Integer helpers

Python's builtin `min`/`max`/`abs` on `int`, written as explicit `if`s so that
concrete runs of the embedded code reduce inside the kernel. -/

def imin (a b : Int) : Int := if a ≤ b then a else b

def imax (a b : Int) : Int := if a ≤ b then b else a

def iabs (a : Int) : Int := (a.natAbs : Int)

theorem imin_eq_min (a b : Int) : imin a b = min a b := by
  unfold imin; rw [min_def]

theorem imax_eq_max (a b : Int) : imax a b = max a b := by
  unfold imax; rw [max_def]

theorem imax_zero_of_nonneg {d : Int} (h : 0 ≤ d) : imax 0 d = d := by
  unfold imax; rw [if_pos h]

theorem imax_zero_of_nonpos {d : Int} (h : d ≤ 0) : imax 0 d = 0 := by
  unfold imax
  by_cases h2 : (0 : Int) ≤ d
  · rw [if_pos h2]; omega
  · rw [if_neg h2]

theorem imax_zero_idem (d : Int) : imax 0 (imax 0 d) = imax 0 d := by
  by_cases h : (0 : Int) ≤ d
  · rw [imax_zero_of_nonneg h, imax_zero_of_nonneg h]
  · rw [imax_zero_of_nonpos (le_of_not_le h), imax_zero_of_nonpos le_rfl]

theorem iabs_eq_abs (a : Int) : iabs a = |a| := by
  unfold iabs; exact Int.abs_eq_natAbs a ▸ rfl

/-- Fuel-based integer square root (largest `r` with `r * r ≤ n`), written
structurally so that concrete evaluations reduce inside the kernel. -/
def isqrt_go (n : Nat) : Nat → Nat → Nat
  | 0, r => r
  | fuel + 1, r => if (r + 1) * (r + 1) ≤ n then isqrt_go n fuel (r + 1) else r

def isqrt (n : Nat) : Nat := isqrt_go n n 0

theorem isqrt_go_sq_le (n : Nat) :
    ∀ (fuel r : Nat), r * r ≤ n → isqrt_go n fuel r * isqrt_go n fuel r ≤ n := by
  intro fuel
  induction fuel with
  | zero => intro r h; simpa [isqrt_go] using h
  | succ fuel ih =>
    intro r h
    unfold isqrt_go
    by_cases hc : (r + 1) * (r + 1) ≤ n
    · simpa [hc] using ih (r + 1) hc
    · simpa [hc] using h

theorem isqrt_go_upper (n : Nat) :
    ∀ (fuel r : Nat),
      (isqrt_go n fuel r = r + fuel ∧ (r + fuel) * (r + fuel) ≤ n) ∨
      ¬ (isqrt_go n fuel r + 1) * (isqrt_go n fuel r + 1) ≤ n := by
  intro fuel
  induction fuel with
  | zero =>
    intro r
    by_cases h : (r + 1) * (r + 1) ≤ n
    · left; exact ⟨by simp [isqrt_go], by
        simpa using Nat.le_trans (Nat.mul_le_mul (Nat.le_succ r) (Nat.le_succ r)) h⟩
    · right; simpa [isqrt_go] using h
  | succ fuel ih =>
    intro r
    unfold isqrt_go
    by_cases hc : (r + 1) * (r + 1) ≤ n
    · rcases ih (r + 1) with ⟨h1, h2⟩ | h1
      · left
        refine ⟨by simpa [hc, h1] using by omega, by
          have : r + 1 + fuel = r + (fuel + 1) := by omega
          simpa [this] using h2⟩
      · right; simpa [hc] using h1
    · right; simp [hc]

/-- `isqrt` really is the floor of the real square root. -/
theorem isqrt_floor (n : Nat) :
    isqrt n * isqrt n ≤ n ∧ n < (isqrt n + 1) * (isqrt n + 1) := by
  constructor
  · exact isqrt_go_sq_le n n 0 (by simp)
  · rcases isqrt_go_upper n n 0 with ⟨h1, h2⟩ | h1
    · -- the fuel ran out: `isqrt n = n` and `n * n ≤ n`, so `n ≤ 1`
      have hn : n ≤ 1 := by nlinarith [h2]
      interval_cases n <;> decide
    · exact not_le.mp h1

/-! ## Feature type constants, from `geenuff/base/types.py` -/

def GEENUFF_TRANSCRIPT : String := "geenuff_transcript"

def GEENUFF_CDS : String := "geenuff_cds"

def GEENUFF_INTRON : String := "geenuff_intron"

def MISSING_UTR_5P : String := "missing_utr_5p"

def MISSING_UTR_3P : String := "missing_utr_3p"

def MISSING_START_CODON : String := "missing_start_codon"

def MISSING_STOP_CODON : String := "missing_stop_codon"

def WRONG_PHASE_5P : String := "wrong_starting_phase"

def MISMATCHED_PHASE_3P : String := "mismatched_ending_phase"

def OVERLAPPING_EXONS : String := "overlapping_exons"

def TOO_SHORT_INTRON : String := "too_short_intron"

def SL_OVERLAP_ERROR : String := "super_loci_overlap_error"

def MISMATCHING_STRANDS : String := "missmatching_strands"

def TRUNCATED_INTRON : String := "truncated_intron"

/-! ## Data model: the importer/handler objects -/

/-- `orm.Coordinate` as carried by the importer handlers: one FASTA sequence.
The sequence is a list of (upper-case) characters. -/
structure Coordinate where
  seqid : String
  length : Int
  sequence : List Char
deriving DecidableEq

/-- `FeatureImporter` from importer.py (fields `id`, `given_name`, `score`,
`source` omitted: no claim touches them).  `end` is a Lean keyword, so the
source's `end` field is called `end_`.  Defaults mirror
`FeatureImporter.__init__`. -/
structure FeatureImporter where
  coord : Coordinate
  is_plus_strand : Bool
  feature_type : String
  start : Int := -1
  end_ : Int := -1
  phase_5p : Int := 0
  phase_3p : Int := 0
  start_is_biological_start : Bool := true
  end_is_biological_end : Bool := true
deriving DecidableEq

/-- `SuperLocusImporter` from importer.py (fields `id`, `entry_type`,
`given_name` omitted). -/
structure SuperLocusImporter where
  coord : Coordinate
  is_plus_strand : Bool
  start : Int := -1
  end_ : Int := -1
  fully_erroneous : Bool := false
deriving DecidableEq

/-- `TranscriptImporter` from importer.py (`entry_type`, `given_name`,
`super_locus_id` omitted).  `id` is the unique primary key from
`InsertCounterHolder.transcript()`; the Python `is` identity test on these
handler objects is modelled as equality of `id`. -/
structure TranscriptImporter where
  id : Nat
  longest : Bool := false
deriving DecidableEq

/-- One entry of `importers['transcripts']` in `OrganizedGeenuffImporterGroup`:
the dict holding the per-transcript handlers.  The Python dict has the keys
`'cds'`/`'introns'`/`'protein'` only for coding transcripts; here `cds` is an
`Option` (`none` = key absent) and `introns` is empty for non-coding
transcripts (it is only ever read when `cds` is present).  The
`transcript_piece` and `protein` handlers carry no data any claim touches and
are omitted. -/
structure TranscriptGroup where
  transcript : TranscriptImporter
  transcript_feature : FeatureImporter
  cds : Option FeatureImporter := none
  introns : List FeatureImporter := []
  errors : List FeatureImporter := []
deriving DecidableEq

/-- One element of the `geenuff_importer_groups` list handed to
`GFFErrorHandling`: the `importers` dict of one super locus. -/
structure ImporterGroup where
  super_locus : SuperLocusImporter
  transcripts : List TranscriptGroup
deriving DecidableEq

/-! ## The coordinate normalizer -/

/-- Modelled from the spec: `get_geenuff_start_end` lives in
`geenuff/base/helpers.py`, which is not under `src/`; only its import and call
sites (`FeatureImporter.set_start_end_from_gff`, `_parse_gff_entries`) are.
Spec §4.1: input is 1-based inclusive; plus strand `(input_start - 1,
input_end)`; minus strand `(input_end, input_start - 1)`. -/
def get_geenuff_start_end (gff_start gff_end : Int) (is_plus_strand : Bool) :
    Int × Int :=
  if is_plus_strand then (gff_start - 1, gff_end) else (gff_end, gff_start - 1)

/-- `FeatureImporter.set_start_end_from_gff` from importer.py. -/
def FeatureImporter.set_start_end_from_gff (f : FeatureImporter)
    (gff_start gff_end : Int) : FeatureImporter :=
  let p := get_geenuff_start_end gff_start gff_end f.is_plus_strand
  { f with start := p.1, end_ := p.2 }

/-! ## The error border mark (`GFFErrorHandling._error_border_mark`) -/

/-- The nested `offset` function of `_error_border_mark`.  Python's
`int(math.sqrt(dist))` is modelled as the exact integer square root
`Nat.sqrt` (for a positive argument both truncate the real square root;
double-precision rounding of `math.sqrt` only deviates far beyond genomic
coordinate magnitudes). -/
def offset (dist : Int) : Int :=
  if dist ≤ 0 then 0
  else imin (dist / 2) ((isqrt dist.toNat : Int) * 10)

/-- `GFFErrorHandling._error_border_mark` from importer.py: the border point
between two neighboring super loci, on the strand the resolver runs on. -/
def error_border_mark (is_plus_strand : Bool) (sl sl_next : SuperLocusImporter) :
    Int :=
  if is_plus_strand then
    sl.end_ + offset (sl_next.start - sl.end_)
  else
    sl.end_ - offset (sl.end_ - sl_next.start)

/-- The claim's (spec §4.4) border offset formula, written exactly as the spec
states it: `offset = min(d // 2, floor(sqrt(d)) * 10)` with
`d = max(0, next.start − prev.end)` taken in the strand's direction. -/
def spec_border_offset (d : Int) : Int :=
  imin ((imax 0 d) / 2) ((isqrt (imax 0 d).toNat : Int) * 10)

/-! ## Claims C3 and C4 -/

theorem spec_border_offset_imax (d : Int) :
    spec_border_offset (imax 0 d) = spec_border_offset d := by
  unfold spec_border_offset
  rw [imax_zero_idem]

theorem offset_eq_spec_border_offset (d : Int) :
    offset d = spec_border_offset d := by
  rcases le_or_lt d 0 with h | h
  · unfold offset spec_border_offset
    rw [if_pos h, imax_zero_of_nonpos h]
    decide
  · unfold offset spec_border_offset
    rw [if_neg (not_le.mpr h), imax_zero_of_nonneg h.le]

/-- C3: the coordinate normalizer is a pure total function; for every 1-based
inclusive input pair it returns `(input_start - 1, input_end)` on the plus
strand and `(input_end, input_start - 1)` on the minus strand; in particular
`(gff_start=1, gff_end=10)` normalizes to `(0,10)` on plus and `(10,0)` on
minus. -/
theorem normalizer_contract :
    (∀ s e : Int, get_geenuff_start_end s e true = (s - 1, e)) ∧
    (∀ s e : Int, get_geenuff_start_end s e false = (e, s - 1)) ∧
    get_geenuff_start_end 1 10 true = (0, 10) ∧
    get_geenuff_start_end 1 10 false = (10, 0) := by
  refine ⟨fun s e => ?_, fun s e => ?_, ?_, ?_⟩ <;>
    simp [get_geenuff_start_end]

/-- C4: for every pair of neighboring super loci on one strand, the error
border point equals `prev.end` plus (minus, on the minus strand) the offset
`min(d // 2, floor(sqrt(d)) * 10)` where `d = max(0, next.start − prev.end)`
in that strand's direction; `d=100` gives offset `50` (border `prev.end+50`)
and `d=4` gives offset `2`; `isqrt` (which models Python's
`int(math.sqrt(dist))`) is the floor of the real square root. -/
theorem error_border_mark_formula :
    (∀ (plus : Bool) (sl sl_next : SuperLocusImporter),
      error_border_mark plus sl sl_next =
        if plus then sl.end_ + spec_border_offset (sl_next.start - sl.end_)
        else sl.end_ - spec_border_offset (sl.end_ - sl_next.start)) ∧
    spec_border_offset 100 = 50 ∧
    spec_border_offset 4 = 2 ∧
    (∀ (sl sl_next : SuperLocusImporter), sl.end_ = 100 → sl_next.start = 200 →
      error_border_mark true sl sl_next = 150) ∧
    (∀ n : Nat, isqrt n * isqrt n ≤ n ∧ n < (isqrt n + 1) * (isqrt n + 1)) := by
  refine ⟨fun plus sl sl_next => ?_, by decide, by decide,
    fun sl sl_next h1 h2 => ?_, isqrt_floor⟩
  · cases plus <;>
      simp [error_border_mark, offset_eq_spec_border_offset]
  · simp [error_border_mark, h1, h2]
    decide

/-! ## Longest-transcript selection
(`OrganizedGeenuffImporterGroup._set_longest_transript`) -/

/-- The nested `filter_coding_introns` of `_set_longest_transript`: keeps the
introns whose (unordered) range overlaps the (unordered) CDS range with
positive length.  `sorted([x, y])` becomes the pair `(imin x y, imax x y)`. -/
def filter_coding_introns (cds_i : FeatureImporter)
    (introns : List FeatureImporter) : List FeatureImporter :=
  introns.filter fun intron =>
    imin (imax cds_i.start cds_i.end_) (imax intron.start intron.end_) -
      imax (imin cds_i.start cds_i.end_) (imin intron.start intron.end_) > 0

/-- `exon_len` as computed per transcript inside `_set_longest_transript`:
`cds_len - sum(intron_lengths)`, `none` when the transcript dict has no
`'cds'` key (non-coding transcript). -/
def exon_length (t : TranscriptGroup) : Option Int :=
  t.cds.map fun cds =>
    iabs (cds.start - cds.end_) -
      ((filter_coding_introns cds t.introns).map fun i => iabs (i.start - i.end_)).sum

/-- One iteration of the first `for` loop of `_set_longest_transript`:
update `(max_exon_len, longest_importer)` with one transcript (skipped when
it has no `'cds'` key). -/
def longest_step (acc : Int × Option Nat) (t : TranscriptGroup) :
    Int × Option Nat :=
  match exon_length t with
  | some l => if l > acc.1 then (l, some t.transcript.id) else acc
  | none => acc

/-- The first `for` loop of `_set_longest_transript`: fold computing
`(max_exon_len, longest_importer)`, starting from `(-1, None)`. -/
def longest_selection (ts : List TranscriptGroup) : Int × Option Nat :=
  ts.foldl longest_step (-1, none)

/-- `OrganizedGeenuffImporterGroup._set_longest_transript` from importer.py
(source spelling kept): the second `for` loop sets `longest` on every
transcript handler, `True` exactly for the handler that `is longest_importer`. -/
def set_longest_transript (ts : List TranscriptGroup) : List TranscriptGroup :=
  let sel := longest_selection ts
  ts.map fun t =>
    if sel.2 = some t.transcript.id then
      { t with transcript := { t.transcript with longest := true } }
    else
      { t with transcript := { t.transcript with longest := false } }

/-! Default elements, used only to give `List.getD` a junk value at indices
that every use keeps in range. -/

def dflt_coordinate : Coordinate := { seqid := "", length := 0, sequence := [] }

def dflt_feature : FeatureImporter :=
  { coord := dflt_coordinate, is_plus_strand := true, feature_type := "" }

def dflt_transcript_group : TranscriptGroup :=
  { transcript := { id := 0 }, transcript_feature := dflt_feature }

def dflt_super_locus : SuperLocusImporter :=
  { coord := dflt_coordinate, is_plus_strand := true }

def dflt_group : ImporterGroup :=
  { super_locus := dflt_super_locus, transcripts := [] }

theorem tg_getD_mem :
    ∀ (l : List TranscriptGroup) (k : Nat), k < l.length →
      l.getD k dflt_transcript_group ∈ l := by
  intro l
  induction l with
  | nil => intro k h; simp at h
  | cons a l ih =>
    intro k h
    cases k with
    | zero => simp [List.getD]
    | succ k =>
      have : l.getD k dflt_transcript_group ∈ l := ih k (by simpa using h)
      simpa [List.getD] using Or.inr this

theorem tg_getD_map (f : TranscriptGroup → TranscriptGroup) :
    ∀ (l : List TranscriptGroup) (k : Nat), k < l.length →
      (l.map f).getD k dflt_transcript_group = f (l.getD k dflt_transcript_group) := by
  intro l
  induction l with
  | nil => intro k h; simp at h
  | cons a l ih =>
    intro k h
    cases k with
    | zero => simp [List.getD]
    | succ k => simpa [List.getD] using ih k (by simpa using h)

theorem tg_getD_get :
    ∀ (l : List TranscriptGroup) (k : Nat) (h : k < l.length),
      l.getD k dflt_transcript_group = l.get ⟨k, h⟩ := by
  intro l
  induction l with
  | nil => intro k h; simp at h
  | cons a l ih =>
    intro k h
    cases k with
    | zero => simp [List.getD]
    | succ k => simpa [List.getD] using ih k (by simpa using h)

theorem nodup_transcript_id_inj (ts : List TranscriptGroup)
    (h : (ts.map fun t => t.transcript.id).Nodup) :
    ∀ j k, j < ts.length → k < ts.length →
      (ts.getD j dflt_transcript_group).transcript.id =
        (ts.getD k dflt_transcript_group).transcript.id → j = k := by
  intro j k hj hk heq
  rw [tg_getD_get ts j hj, tg_getD_get ts k hk] at heq
  have hlen : (ts.map fun t => t.transcript.id).length = ts.length := by simp
  have hget :
      (ts.map fun t => t.transcript.id).get ⟨j, by rw [hlen]; exact hj⟩ =
      (ts.map fun t => t.transcript.id).get ⟨k, by rw [hlen]; exact hk⟩ := by
    simpa [List.get_map] using heq
  have := h.get_inj_iff.mp hget
  simpa using this

/-- Characterization of the `max_exon_len` / `longest_importer` fold of
`_set_longest_transript`: the accumulator never decreases, bounds every coding
transcript's `exon_len` seen so far, and either never changed or records the
first transcript attaining the (strict) maximum. -/
theorem longest_fold_spec (ts : List TranscriptGroup) :
    ∀ (acc : Int × Option Nat),
      acc.1 ≤ (List.foldl longest_step acc ts).1 ∧
      (∀ t ∈ ts, ∀ l, exon_length t = some l →
        l ≤ (List.foldl longest_step acc ts).1) ∧
      ((List.foldl longest_step acc ts = acc) ∨
       (acc.1 < (List.foldl longest_step acc ts).1 ∧
        ∃ k, k < ts.length ∧
          exon_length (ts.getD k dflt_transcript_group) =
            some (List.foldl longest_step acc ts).1 ∧
          (List.foldl longest_step acc ts).2 =
            some (ts.getD k dflt_transcript_group).transcript.id ∧
          (∀ j, j < k → ∀ l,
            exon_length (ts.getD j dflt_transcript_group) = some l →
            l < (List.foldl longest_step acc ts).1))) := by
  induction ts with
  | nil =>
    intro acc
    refine ⟨le_refl _, ?_, Or.inl rfl⟩
    intro t ht; simp at ht
  | cons t ts ih =>
    intro acc
    have hfold : List.foldl longest_step acc (t :: ts) =
        List.foldl longest_step (longest_step acc t) ts := rfl
    rw [hfold]
    cases hE : exon_length t with
    | none =>
      have hstep : longest_step acc t = acc := by
        unfold longest_step; rw [hE]
      rw [hstep]
      obtain ⟨i1, i2, i3⟩ := ih acc
      refine ⟨i1, ?_, ?_⟩
      · intro u hu l hl
        rcases List.mem_cons.mp hu with rfl | hu
        · rw [hE] at hl; exact absurd hl (by simp)
        · exact i2 u hu l hl
      · rcases i3 with h | ⟨hlt, k, hk, h1, h2, h3⟩
        · exact Or.inl h
        · refine Or.inr ⟨hlt, k + 1, by simpa using Nat.succ_lt_succ hk, ?_, ?_, ?_⟩
          · simpa [List.getD] using h1
          · simpa [List.getD] using h2
          · intro j hj l hl
            cases j with
            | zero =>
              rw [show (t :: ts).getD 0 dflt_transcript_group = t from rfl, hE] at hl
              exact absurd hl (by simp)
            | succ j =>
              exact h3 j (by omega) l (by simpa [List.getD] using hl)
    | some l =>
      by_cases hgt : l > acc.1
      · have hstep : longest_step acc t = (l, some t.transcript.id) := by
          unfold longest_step; rw [hE]; simp [hgt]
        rw [hstep]
        obtain ⟨i1, i2, i3⟩ := ih (l, some t.transcript.id)
        have hle : l ≤ (List.foldl longest_step (l, some t.transcript.id) ts).1 := by
          simpa using i1
        have haccr : acc.1 < (List.foldl longest_step (l, some t.transcript.id) ts).1 :=
          lt_of_lt_of_le hgt hle
        refine ⟨haccr.le, ?_, Or.inr ⟨haccr, ?_⟩⟩
        · intro u hu l2 hl2
          rcases List.mem_cons.mp hu with rfl | hu
          · rw [hE] at hl2
            injection hl2 with hl2; subst hl2
            exact hle
          · exact i2 u hu l2 hl2
        · rcases i3 with h | ⟨hlt, k, hk, h1, h2, h3⟩
          · refine ⟨0, by simp, ?_, ?_, ?_⟩
            · rw [show (t :: ts).getD 0 dflt_transcript_group = t from rfl, hE, h]
            · rw [h]; rfl
            · intro j hj; omega
          · have hlt' : l < (List.foldl longest_step (l, some t.transcript.id) ts).1 := by
              simpa using hlt
            refine ⟨k + 1, by simpa using Nat.succ_lt_succ hk, ?_, ?_, ?_⟩
            · simpa [List.getD] using h1
            · simpa [List.getD] using h2
            · intro j hj l2 hl2
              cases j with
              | zero =>
                rw [show (t :: ts).getD 0 dflt_transcript_group = t from rfl, hE] at hl2
                injection hl2 with hl2; subst hl2
                exact hlt'
              | succ j =>
                exact h3 j (by omega) l2 (by simpa [List.getD] using hl2)
      · have hstep : longest_step acc t = acc := by
          unfold longest_step; rw [hE]; simp [hgt]
        rw [hstep]
        obtain ⟨i1, i2, i3⟩ := ih acc
        refine ⟨i1, ?_, ?_⟩
        · intro u hu l2 hl2
          rcases List.mem_cons.mp hu with rfl | hu
          · rw [hE] at hl2
            injection hl2 with hl2; subst hl2
            exact le_trans (le_of_not_lt hgt) i1
          · exact i2 u hu l2 hl2
        · rcases i3 with h | ⟨hlt, k, hk, h1, h2, h3⟩
          · exact Or.inl h
          · refine Or.inr ⟨hlt, k + 1, by simpa using Nat.succ_lt_succ hk, ?_, ?_, ?_⟩
            · simpa [List.getD] using h1
            · simpa [List.getD] using h2
            · intro j hj l2 hl2
              cases j with
              | zero =>
                rw [show (t :: ts).getD 0 dflt_transcript_group = t from rfl, hE] at hl2
                injection hl2 with hl2; subst hl2
                exact lt_of_le_of_lt (le_of_not_lt hgt) hlt
              | succ j =>
                exact h3 j (by omega) l2 (by simpa [List.getD] using hl2)

/-! ## Claim C2 -/

/-- A concrete super-locus transcript list on which `_set_longest_transript`
flags no transcript at all: the single coding transcript's
`exon_len = |10 - 12| - |11 - 1000| = -987` never beats the `-1` the fold
starts from, so `longest_importer` stays `None`. -/
def c2_coordinate : Coordinate := { seqid := "chr1", length := 2000, sequence := [] }

def c2_transcripts : List TranscriptGroup :=
  [{ transcript := { id := 7 },
     transcript_feature :=
       { coord := c2_coordinate, is_plus_strand := true,
         feature_type := GEENUFF_TRANSCRIPT, start := 0, end_ := 1000 },
     cds := some
       { coord := c2_coordinate, is_plus_strand := true,
         feature_type := GEENUFF_CDS, start := 10, end_ := 12 },
     introns :=
       [{ coord := c2_coordinate, is_plus_strand := true,
          feature_type := GEENUFF_INTRON, start := 11, end_ := 1000 }] }]

/-- C2 counterexample: this super-locus group has a transcript bucket with CDS
entries, yet after `_set_longest_transript` no transcript ends with
`longest = true` (the claim demands exactly one). -/
theorem set_longest_transript_counterexample :
    (∃ t ∈ c2_transcripts, t.cds.isSome) ∧
    ¬ ∃ t ∈ set_longest_transript c2_transcripts, t.transcript.longest = true := by
  constructor
  · refine ⟨c2_transcripts.head (by simp [c2_transcripts]), by simp [c2_transcripts], ?_⟩
    simp [c2_transcripts]
  · decide

/-- C2 (amended): if some coding transcript has
`exon_len = cds_length − Σ overlapping-intron lengths ≥ 0` (equivalently,
`> -1`, the fold's start value) then — given the builder's pairwise-distinct
transcript ids — exactly one transcript ends with `longest = true`, namely the
first-encountered transcript maximizing `exon_len`, ties broken by encounter
order; if every coding transcript has `exon_len < 0`, or no transcript has CDS
entries, every transcript ends with `longest = false`. -/
theorem set_longest_transript_spec (ts : List TranscriptGroup)
    (hnodup : (ts.map fun t => t.transcript.id).Nodup) :
    ((∃ t ∈ ts, ∃ l, exon_length t = some l ∧ 0 ≤ l) →
      ∃ k, k < ts.length ∧
        ((set_longest_transript ts).getD k dflt_transcript_group).transcript.longest
          = true ∧
        (∀ j, j < ts.length → j ≠ k →
          ((set_longest_transript ts).getD j dflt_transcript_group).transcript.longest
            = false) ∧
        (∃ lk, exon_length (ts.getD k dflt_transcript_group) = some lk ∧
          (∀ t ∈ ts, ∀ l, exon_length t = some l → l ≤ lk) ∧
          (∀ j, j < k → ∀ l,
            exon_length (ts.getD j dflt_transcript_group) = some l → l < lk))) ∧
    ((∀ t ∈ ts, ∀ l, exon_length t = some l → l < 0) →
      ∀ t ∈ set_longest_transript ts, t.transcript.longest = false) := by
  obtain ⟨i1, i2, i3⟩ := longest_fold_spec ts (-1, none)
  constructor
  · rintro ⟨t0, ht0, l0, hl0, hl0nn⟩
    rcases i3 with h | ⟨hlt, k, hk, h1, h2, h3⟩
    · -- the fold never updated: contradicts the `≥ 0` hypothesis
      exfalso
      have := i2 t0 ht0 l0 hl0
      rw [h] at this
      exact absurd (le_trans hl0nn this) (by norm_num)
    · refine ⟨k, hk, ?_, ?_, ?_⟩
      · rw [show set_longest_transript ts = ts.map fun t =>
            if (longest_selection ts).2 = some t.transcript.id then
              { t with transcript := { t.transcript with longest := true } }
            else
              { t with transcript := { t.transcript with longest := false } } from rfl,
          tg_getD_map _ ts k hk]
        rw [show longest_selection ts = List.foldl longest_step (-1, none) ts from rfl, h2]
        simp
      · intro j hj hjk
        rw [show set_longest_transript ts = ts.map fun t =>
            if (longest_selection ts).2 = some t.transcript.id then
              { t with transcript := { t.transcript with longest := true } }
            else
              { t with transcript := { t.transcript with longest := false } } from rfl,
          tg_getD_map _ ts j hj]
        rw [show longest_selection ts = List.foldl longest_step (-1, none) ts from rfl, h2]
        have hne : ¬ (some (ts.getD k dflt_transcript_group).transcript.id =
            some (ts.getD j dflt_transcript_group).transcript.id) := by
          intro hEq
          exact hjk (nodup_transcript_id_inj ts hnodup j k hj hk (Option.some.inj hEq).symm)
        rw [if_neg hne]
      · exact ⟨(List.foldl longest_step (-1, none) ts).1, h1,
          fun t ht l hl => i2 t ht l hl, h3⟩
  · intro hall t ht
    rcases i3 with h | ⟨hlt, k, hk, h1, h2, h3⟩
    · obtain ⟨t0, ht0, rfl⟩ := List.mem_map.mp ht
      rw [show longest_selection ts = List.foldl longest_step (-1, none) ts from rfl, h]
      simp
    · exfalso
      have hmem := tg_getD_mem ts k hk
      have := hall _ hmem _ h1
      omega

def c2_witness_transcript : TranscriptGroup :=
  { transcript := { id := 1 },
    transcript_feature :=
      { coord := c2_coordinate, is_plus_strand := true,
        feature_type := GEENUFF_TRANSCRIPT, start := 0, end_ := 100 },
    cds := some
      { coord := c2_coordinate, is_plus_strand := true,
        feature_type := GEENUFF_CDS, start := 10, end_ := 40 } }

def c2_witness_transcripts : List TranscriptGroup := [c2_witness_transcript]

theorem set_longest_transript_spec_witness :
    ((c2_witness_transcripts.map fun t => t.transcript.id).Nodup) ∧
    ∃ k, k < c2_witness_transcripts.length ∧
      ((set_longest_transript c2_witness_transcripts).getD k
        dflt_transcript_group).transcript.longest = true ∧
      (∀ j, j < c2_witness_transcripts.length → j ≠ k →
        ((set_longest_transript c2_witness_transcripts).getD j
          dflt_transcript_group).transcript.longest = false) ∧
      (∃ lk, exon_length (c2_witness_transcripts.getD k dflt_transcript_group)
          = some lk ∧
        (∀ t ∈ c2_witness_transcripts, ∀ l, exon_length t = some l → l ≤ lk) ∧
        (∀ j, j < k → ∀ l,
          exon_length (c2_witness_transcripts.getD j dflt_transcript_group)
            = some l → l < lk)) :=
  ⟨by decide,
    (set_longest_transript_spec c2_witness_transcripts (by decide)).1
      ⟨c2_witness_transcript, by decide, 30, by decide, by decide⟩⟩

/-! ## The structural error detector and resolver (`GFFErrorHandling`)

The Python class mutates `FeatureImporter` objects held inside
`self.groups` by reference; here `self.groups` is a `List ImporterGroup`
threaded through every step, and each mutation returns the updated list.
`logging` calls carry no state and are dropped. -/

/-- The per-run fields of `GFFErrorHandling` (`self.is_plus_strand`,
`self.coord`) together with `self.controller.config['min_intron_length']`,
the only controller field the resolver reads. -/
structure GFFErrorHandlingCtx where
  is_plus_strand : Bool
  coord : Coordinate
  min_intron_length : Int
deriving DecidableEq

def getGroup (groups : List ImporterGroup) (i : Nat) : ImporterGroup :=
  groups.getD i dflt_group

def getT (groups : List ImporterGroup) (i k : Nat) : TranscriptGroup :=
  (getGroup groups i).transcripts.getD k dflt_transcript_group

/-- Replace transcript `k` of group `i` (the reference-mutation of one
`transcript` dict in the Python code). -/
def setT (groups : List ImporterGroup) (i k : Nat) (t : TranscriptGroup) :
    List ImporterGroup :=
  groups.set i
    { getGroup groups i with
      transcripts := (getGroup groups i).transcripts.set k t }

def modifyT (groups : List ImporterGroup) (i k : Nat)
    (f : TranscriptGroup → TranscriptGroup) : List ImporterGroup :=
  setT groups i k (f (getT groups i k))

/-- Python `max(list)` / `min(list)` on a possibly-empty int list. -/
def list_imax : List Int → Option Int
  | [] => none
  | x :: xs => some (xs.foldl imax x)

def list_imin : List Int → Option Int
  | [] => none
  | x :: xs => some (xs.foldl imin x)

/-- `sequence[i]`, `'N'` out of range (the embedded scenarios keep indices in
range). -/
def seq_at (s : List Char) (i : Int) : Char :=
  if h : 0 ≤ i ∧ i.toNat < s.length then s.get ⟨i.toNat, h.2⟩ else 'N'

def complement : Char → Char
  | 'A' => 'T'
  | 'T' => 'A'
  | 'G' => 'C'
  | 'C' => 'G'
  | c => c

/-- Modelled from the spec: `has_start_codon` lives in
`geenuff/base/helpers.py`, which is not under `src/`.  Spec §4.4: "Missing
start codon ...: literal sequence at the normalized CDS boundary does not
match the expected codon, given strand."  Plus strand: the three bases from
the CDS 5′ coordinate read `ATG`; minus strand: the reverse complement of the
three bases ending at the CDS 5′ coordinate reads `ATG`. -/
def has_start_codon (sequence : List Char) (start : Int)
    (is_plus_strand : Bool) : Bool :=
  if is_plus_strand then
    decide (seq_at sequence start = 'A' ∧ seq_at sequence (start + 1) = 'T' ∧
      seq_at sequence (start + 2) = 'G')
  else
    decide (complement (seq_at sequence start) = 'A' ∧
      complement (seq_at sequence (start - 1)) = 'T' ∧
      complement (seq_at sequence (start - 2)) = 'G')

def is_stop_codon (a b c : Char) : Bool :=
  decide ((a = 'T' ∧ b = 'A' ∧ c = 'A') ∨ (a = 'T' ∧ b = 'A' ∧ c = 'G') ∨
    (a = 'T' ∧ b = 'G' ∧ c = 'A'))

/-- Modelled from the spec: `has_stop_codon` lives in
`geenuff/base/helpers.py`, which is not under `src/`.  Plus strand: the three
bases ending at the (exclusive) CDS 3′ coordinate read a stop codon; minus
strand: the reverse complement of the three bases after it. -/
def has_stop_codon (sequence : List Char) (end_ : Int)
    (is_plus_strand : Bool) : Bool :=
  if is_plus_strand then
    is_stop_codon (seq_at sequence (end_ - 3)) (seq_at sequence (end_ - 2))
      (seq_at sequence (end_ - 1))
  else
    is_stop_codon (complement (seq_at sequence (end_ + 3)))
      (complement (seq_at sequence (end_ + 2)))
      (complement (seq_at sequence (end_ + 1)))

/-- `GFFErrorHandling._get_all_errors_of_slg`. -/
def get_all_errors_of_slg (slg : ImporterGroup) : List FeatureImporter :=
  (slg.transcripts.map fun t => t.errors).flatten

/-- The nested `_overlap_error_status` of `_sl_neighbor_status`. -/
def overlap_error_status (slg_prev slg : ImporterGroup) : String :=
  let status :=
    if (get_all_errors_of_slg slg_prev).any
        (fun e => e.feature_type = MISSING_UTR_3P) then
      "overlap_error_5p"
    else "overlap"
  if (get_all_errors_of_slg slg).any
      (fun e => e.feature_type = MISSING_UTR_5P) then
    if status = "overlap" then "overlap_error_3p" else "overlap_error_both"
  else status

/-- The nested `_nested_error_status` of `_sl_neighbor_status`. -/
def nested_error_status (slg : ImporterGroup) : String :=
  let error_types := (get_all_errors_of_slg slg).map fun e => e.feature_type
  if MISSING_UTR_3P ∈ error_types ∧ MISSING_UTR_5P ∈ error_types then
    "nested_error_both"
  else if MISSING_UTR_3P ∈ error_types then "nested_error_3p"
  else if MISSING_UTR_5P ∈ error_types then "nested_error_5p"
  else "nested"

/-- `GFFErrorHandling._sl_neighbor_status`. -/
def sl_neighbor_status (is_plus_strand : Bool) (slg_prev slg : ImporterGroup) :
    String :=
  let sl_prev := slg_prev.super_locus
  let sl := slg.super_locus
  if is_plus_strand = true ∧ sl_prev.end_ > sl.start then
    if sl_prev.end_ > sl.end_ then nested_error_status slg
    else overlap_error_status slg_prev slg
  else if is_plus_strand = false ∧ sl_prev.end_ < sl.start then
    if sl_prev.end_ < sl.end_ then nested_error_status slg
    else overlap_error_status slg_prev slg
  else "normal"

/-- `GFFErrorHandling._3p_cds_start`: the start of the 3′-most CDS segment,
i.e. the nearest intron end strictly inside the CDS span, else `cds.start`. -/
def cds_start_3p (is_plus_strand : Bool) (cds : FeatureImporter)
    (introns : List FeatureImporter) : Int :=
  let intron_ends := introns.map fun x => x.end_
  if is_plus_strand then
    let i_ends_within := intron_ends.filter fun i => cds.start < i ∧ i < cds.end_
    match list_imax i_ends_within with
    | some m => m
    | none => cds.start
  else
    let i_ends_within := intron_ends.filter fun i => cds.end_ < i ∧ i < cds.start
    match list_imin i_ends_within with
    | some m => m
    | none => cds.start

/-- The `FeatureImporter(...)` construction inside
`GFFErrorHandling._add_error` (phases default 0, biological flags default
`True`). -/
def mk_error (coord : Coordinate) (is_plus_strand : Bool) (error_type : String)
    (start end_ : Int) : FeatureImporter :=
  { coord := coord, is_plus_strand := is_plus_strand,
    feature_type := error_type, start := start, end_ := end_ }

/-- `GFFErrorHandling._add_error`: build an error feature with `self.coord`
and append it to `transcript_g['errors']`. -/
def add_error (ctx : GFFErrorHandlingCtx) (groups : List ImporterGroup)
    (i k : Nat) (start end_ : Int) (is_plus_strand : Bool)
    (error_type : String) : List ImporterGroup :=
  modifyT groups i k fun t =>
    { t with errors := t.errors ++ [mk_error ctx.coord is_plus_strand error_type start end_] }

/-- `GFFErrorHandling._zero_len_coords_at_sequence_edge` (directions are the
`'5p'`/`'3p'` strings of the source; the `'whole'` direction falls through
both `if`s and returns `False`). -/
def zero_len_coords_at_sequence_edge (is_plus_strand : Bool)
    (error_5p error_3p : Int) (direction : String)
    (coordinate : Coordinate) : Bool :=
  if is_plus_strand then
    if direction = "5p" then decide (error_5p = 0 ∧ error_3p = 0)
    else if direction = "3p" then
      decide (error_5p = coordinate.length ∧ error_3p = coordinate.length)
    else false
  else
    if direction = "5p" then
      decide (error_5p = coordinate.length - 1 ∧ error_3p = coordinate.length - 1)
    else if direction = "3p" then decide (error_5p = -1 ∧ error_3p = -1)
    else false

/-- The `handler` argument of `_add_overlapping_error`.  The Python call sites
pass one of: the transcript's `cds` feature, the transcript's
`transcript_feature`, one of its introns, or a `SuperLocusImporter` (which the
`isinstance(h, FeatureImporter)` test then skips when marking).  Object
references become tags resolved against the current state. -/
inductive Handler where
  | cds : Handler
  | tf : Handler
  | intron (j : Nat) : Handler
  | sl (g : Nat) : Handler
deriving DecidableEq

def handler_is_feature_importer : Handler → Bool
  | .sl _ => false
  | _ => true

def handler_start (groups : List ImporterGroup) (i k : Nat) : Handler → Int
  | .cds => ((getT groups i k).cds.getD dflt_feature).start
  | .tf => (getT groups i k).transcript_feature.start
  | .intron j => ((getT groups i k).introns.getD j dflt_feature).start
  | .sl g => (getGroup groups g).super_locus.start

def handler_end (groups : List ImporterGroup) (i k : Nat) : Handler → Int
  | .cds => ((getT groups i k).cds.getD dflt_feature).end_
  | .tf => (getT groups i k).transcript_feature.end_
  | .intron j => ((getT groups i k).introns.getD j dflt_feature).end_
  | .sl g => (getGroup groups g).super_locus.end_

/-- `h.start_is_biological_start = False` for one handler (a no-op for a
`SuperLocusImporter`, exactly like the `isinstance` test in the source). -/
def mark_start_not_biological (groups : List ImporterGroup) (i k : Nat) :
    Handler → List ImporterGroup
  | .cds => modifyT groups i k fun t =>
      { t with cds := t.cds.map fun c => { c with start_is_biological_start := false } }
  | .tf => modifyT groups i k fun t =>
      { t with transcript_feature :=
          { t.transcript_feature with start_is_biological_start := false } }
  | .intron j => modifyT groups i k fun t =>
      { t with
        introns := t.introns.set j
          ({ t.introns.getD j dflt_feature with start_is_biological_start := false }) }
  | .sl _ => groups

/-- `h.end_is_biological_end = False` for one handler. -/
def mark_end_not_biological (groups : List ImporterGroup) (i k : Nat) :
    Handler → List ImporterGroup
  | .cds => modifyT groups i k fun t =>
      { t with cds := t.cds.map fun c => { c with end_is_biological_end := false } }
  | .tf => modifyT groups i k fun t =>
      { t with transcript_feature :=
          { t.transcript_feature with end_is_biological_end := false } }
  | .intron j => modifyT groups i k fun t =>
      { t with
        introns := t.introns.set j
          ({ t.introns.getD j dflt_feature with end_is_biological_end := false }) }
  | .sl _ => groups

/-- `for h in [handler] + mark_other_handlers: ...` in the `'5p'` branch.
The only call sites passing `mark_other_handlers` pass `[tf]`; the flag
`mark_other_tf` models that list being `[tf]` (`true`) or `[]` (`false`). -/
def mark_handlers_5p (groups : List ImporterGroup) (i k : Nat)
    (handler : Handler) (mark_other_tf : Bool) : List ImporterGroup :=
  let g1 := mark_start_not_biological groups i k handler
  if mark_other_tf then mark_start_not_biological g1 i k .tf else g1

def mark_handlers_3p (groups : List ImporterGroup) (i k : Nat)
    (handler : Handler) (mark_other_tf : Bool) : List ImporterGroup :=
  let g1 := mark_end_not_biological groups i k handler
  if mark_other_tf then mark_end_not_biological g1 i k .tf else g1

/-- The upstream `while` of `_add_overlapping_error`
(`while j > 0 and status(groups[j-1], groups[j]) != 'normal': j -= 1`). -/
def scan5p (is_plus_strand : Bool) (groups : List ImporterGroup) : Nat → Nat
  | 0 => 0
  | j + 1 =>
    if sl_neighbor_status is_plus_strand (getGroup groups j)
        (getGroup groups (j + 1)) ≠ "normal" then
      scan5p is_plus_strand groups j
    else j + 1

/-- The downstream `while`
(`while j < len(groups) - 1 and status(groups[j], groups[j+1]) != 'normal':
j += 1`), with explicit fuel `groups.length` (an upper bound on the number of
iterations, so the result equals the unbounded loop's). -/
def scan3p (is_plus_strand : Bool) (groups : List ImporterGroup) :
    Nat → Nat → Nat
  | 0, j => j
  | fuel + 1, j =>
    if j < groups.length - 1 ∧
        sl_neighbor_status is_plus_strand (getGroup groups j)
          (getGroup groups (j + 1)) ≠ "normal" then
      scan3p is_plus_strand groups fuel (j + 1)
    else j

/-- The `anchor_5p` computation of `_add_overlapping_error` for a given `j`. -/
def anchor_5p (ctx : GFFErrorHandlingCtx) (groups : List ImporterGroup)
    (coord : Coordinate) (j : Nat) : Int :=
  if j > 0 then
    error_border_mark ctx.is_plus_strand (getGroup groups (j - 1)).super_locus
      (getGroup groups j).super_locus
  else if ctx.is_plus_strand then 0 else coord.length

/-- The `anchor_3p` computation of `_add_overlapping_error` for a given `j`. -/
def anchor_3p (ctx : GFFErrorHandlingCtx) (groups : List ImporterGroup)
    (coord : Coordinate) (j : Nat) : Int :=
  if j < groups.length - 1 then
    error_border_mark ctx.is_plus_strand (getGroup groups j).super_locus
      (getGroup groups (j + 1)).super_locus
  else if ctx.is_plus_strand then coord.length else -1

/-- `GFFErrorHandling._add_overlapping_error`.  `direction` is one of the
source's `'5p'`/`'3p'`/`'whole'` strings (the source `assert`s this; any other
string returns the state unchanged, a case no call site reaches).  For
`'whole'` the downstream scan continues from the upstream scan's `j`, as in
the source where `j` is shared between the two blocks. -/
def add_overlapping_error (ctx : GFFErrorHandlingCtx)
    (groups : List ImporterGroup) (i k : Nat) (handler : Handler)
    (direction : String) (error_type : String)
    (find_next_non_overlapping : Bool) (mark_other_tf : Bool) :
    List ImporterGroup :=
  let coord := (getGroup groups i).super_locus.coord
  let j5 := if find_next_non_overlapping then scan5p ctx.is_plus_strand groups i else i
  let a5 := anchor_5p ctx groups coord j5
  let j3start := if direction = "whole" then j5 else i
  let j3 :=
    if find_next_non_overlapping then
      scan3p ctx.is_plus_strand groups groups.length j3start
    else j3start
  let a3 := anchor_3p ctx groups coord j3
  if direction = "5p" then
    let error_5p := a5
    let error_3p := handler_start groups i k handler
    let groups1 := mark_handlers_5p groups i k handler mark_other_tf
    if zero_len_coords_at_sequence_edge ctx.is_plus_strand error_5p error_3p
        direction coord then groups1
    else add_error ctx groups1 i k error_5p error_3p ctx.is_plus_strand error_type
  else if direction = "3p" then
    let error_5p := handler_end groups i k handler
    let error_3p := a3
    let groups1 := mark_handlers_3p groups i k handler mark_other_tf
    if zero_len_coords_at_sequence_edge ctx.is_plus_strand error_5p error_3p
        direction coord then groups1
    else add_error ctx groups1 i k error_5p error_3p ctx.is_plus_strand error_type
  else if direction = "whole" then
    if zero_len_coords_at_sequence_edge ctx.is_plus_strand a5 a3
        direction coord then groups
    else add_error ctx groups i k a5 a3 ctx.is_plus_strand error_type
  else groups

/-! The per-transcript body of `GFFErrorHandling.resolve_errors`, split into
one function per consecutive source block.  Every step re-reads the current
transcript from the threaded state, mirroring the by-reference mutation of
the Python objects. -/

/-- resolve_errors: "the case of missing of implicit UTR ranges"
(`cds.start == tf.start` / `cds.end == tf.end`). -/
def check_missing_utr (ctx : GFFErrorHandlingCtx) (groups : List ImporterGroup)
    (i k : Nat) : List ImporterGroup :=
  match (getT groups i k).cds with
  | none => groups
  | some cds =>
    let tf := (getT groups i k).transcript_feature
    let g1 :=
      if cds.start = tf.start then
        add_overlapping_error ctx groups i k .cds "5p" MISSING_UTR_5P false true
      else groups
    if cds.end_ = tf.end_ then
      add_overlapping_error ctx g1 i k .cds "3p" MISSING_UTR_3P false true
    else g1

/-- resolve_errors: "the case of missing start/stop codon". -/
def check_codons (ctx : GFFErrorHandlingCtx) (groups : List ImporterGroup)
    (i k : Nat) : List ImporterGroup :=
  match (getT groups i k).cds with
  | none => groups
  | some cds =>
    let g1 :=
      if has_start_codon cds.coord.sequence cds.start ctx.is_plus_strand then
        groups
      else add_overlapping_error ctx groups i k .cds "5p" MISSING_START_CODON false false
    if has_stop_codon cds.coord.sequence cds.end_ ctx.is_plus_strand then g1
    else add_overlapping_error ctx g1 i k .cds "3p" MISSING_STOP_CODON false false

/-- resolve_errors: "the case of wrong 5p phase" (`cds.phase_5p != 0`). -/
def check_phase_5p (ctx : GFFErrorHandlingCtx) (groups : List ImporterGroup)
    (i k : Nat) : List ImporterGroup :=
  match (getT groups i k).cds with
  | none => groups
  | some cds =>
    if cds.phase_5p ≠ 0 then
      add_overlapping_error ctx groups i k .cds "5p" WRONG_PHASE_5P false false
    else groups

/-- Python `str.startswith`, written over the character lists so that
concrete evaluations reduce inside the kernel. -/
def str_startsWith (s pre : String) : Bool :=
  decide (s.data.take pre.data.length = pre.data)

/-- resolve_errors: "check the case of overlapping sl together with an error
in this transcript" (only for `i > 0`).  The `'overlap_error_both'` status
takes the first branch only (`if`/`elif` in the source). -/
def check_neighbor_overlap (ctx : GFFErrorHandlingCtx)
    (groups : List ImporterGroup) (i k : Nat) : List ImporterGroup :=
  if i > 0 then
    let status := sl_neighbor_status ctx.is_plus_strand
      (getGroup groups (i - 1)) (getGroup groups i)
    if status ≠ "normal" then
      if status = "overlap_error_5p" ∨ status = "overlap_error_both" then
        add_overlapping_error ctx groups i k (.sl (i - 1)) "3p" SL_OVERLAP_ERROR
          true false
      else if status = "overlap_error_3p" then
        add_overlapping_error ctx groups i k (.sl i) "5p" SL_OVERLAP_ERROR
          true false
      else if str_startsWith status "nested_error" then
        modifyT groups i k fun t =>
          { t with errors := t.errors.filter fun e =>
              ¬ (e.feature_type = MISSING_UTR_3P ∨ e.feature_type = MISSING_UTR_5P) }
      else groups
    else groups
  else groups

/-- resolve_errors: "the case of wrong 3p phase", which only runs
`if introns:` (list non-empty). -/
def check_phase_3p (ctx : GFFErrorHandlingCtx) (groups : List ImporterGroup)
    (i k : Nat) : List ImporterGroup :=
  match (getT groups i k).cds with
  | none => groups
  | some cds =>
    let introns := (getT groups i k).introns
    if introns ≠ [] then
      let len_3p_exon := iabs (cds.end_ - cds_start_3p ctx.is_plus_strand cds introns)
      if cds.phase_3p ≠ len_3p_exon % 3 then
        add_overlapping_error ctx groups i k .cds "3p" MISMATCHED_PHASE_3P false false
      else groups
    else groups

/-- The decisions of the `for j, intron in enumerate(introns)` loop of
resolve_errors: the errors it appends (in loop order) and the indices of the
`faulty_introns` it collects.  The loop's decisions read only the intron
list and `tf`, which the loop body never changes, so they are computed here
as a pure pass. -/
def intron_loop_step (is_plus_strand : Bool) (min_intron_length : Int)
    (tf : FeatureImporter) (introns : List FeatureImporter)
    (acc : List (Int × Int × String) × List Nat) (j : Nat) :
    List (Int × Int × String) × List Nat :=
  let intron := introns.getD j dflt_feature
  if (tf.is_plus_strand = true ∧ intron.end_ < intron.start) ∨
      (is_plus_strand = false ∧ intron.end_ > intron.start) then
    let error_start := if j > 0 then (introns.getD (j - 1) dflt_feature).end_
      else tf.start
    let error_end := if j + 1 < introns.length then
        (introns.getD (j + 1) dflt_feature).start
      else tf.end_
    (acc.1 ++ [(error_start, error_end, OVERLAPPING_EXONS)], acc.2 ++ [j])
  else if iabs (intron.end_ - intron.start) < min_intron_length then
    (acc.1 ++ [(intron.start, intron.end_, TOO_SHORT_INTRON)], acc.2)
  else acc

def intron_loop_entries (is_plus_strand : Bool) (min_intron_length : Int)
    (tf : FeatureImporter) (introns : List FeatureImporter) :
    List (Int × Int × String) × List Nat :=
  (List.range introns.length).foldl
    (intron_loop_step is_plus_strand min_intron_length tf introns) ([], [])

/-- resolve_errors: the overlapping-exons / too-short-intron loop followed by
`introns.remove(intron)` for each faulty intron (removal by identity =
removal by index). -/
def check_intron_loop (ctx : GFFErrorHandlingCtx) (groups : List ImporterGroup)
    (i k : Nat) : List ImporterGroup :=
  match (getT groups i k).cds with
  | none => groups
  | some _ =>
    let t := getT groups i k
    let entries := intron_loop_entries ctx.is_plus_strand ctx.min_intron_length
      t.transcript_feature t.introns
    let g1 := entries.1.foldl
      (fun gs e => add_error ctx gs i k e.1 e.2.1 ctx.is_plus_strand e.2.2) groups
    modifyT g1 i k fun t2 =>
      { t2 with
        introns :=
          (((List.range t2.introns.length).filter
              (fun j => j ∉ entries.2)).map
            (fun j => t2.introns.getD j dflt_feature)) }

/-- resolve_errors: "finally, introns can be partial": the truncated-intron
loop over the (post-removal) intron list. -/
def check_truncated_introns (ctx : GFFErrorHandlingCtx)
    (groups : List ImporterGroup) (i k : Nat) : List ImporterGroup :=
  match (getT groups i k).cds with
  | none => groups
  | some _ =>
    (List.range (getT groups i k).introns.length).foldl
      (fun gs j =>
        let t := getT gs i k
        let intron := t.introns.getD j dflt_feature
        let g1 :=
          if intron.start = t.transcript_feature.start then
            add_overlapping_error ctx gs i k (.intron j) "5p" TRUNCATED_INTRON
              false false
          else gs
        let t1 := getT g1 i k
        let intron1 := t1.introns.getD j dflt_feature
        if intron1.end_ = t1.transcript_feature.end_ then
          add_overlapping_error ctx g1 i k (.intron j) "3p" TRUNCATED_INTRON
            false false
        else g1)
      groups

/-- The whole `for transcript in group['transcripts']` body of
resolve_errors for one transcript.  Everything is inside
`if 'cds' in transcript:` — a non-coding transcript is untouched. -/
def resolve_transcript (ctx : GFFErrorHandlingCtx)
    (groups : List ImporterGroup) (i k : Nat) : List ImporterGroup :=
  match (getT groups i k).cds with
  | none => groups
  | some _ =>
    let g1 := check_missing_utr ctx groups i k
    let g2 := check_codons ctx g1 i k
    let g3 := check_phase_5p ctx g2 i k
    let g4 := check_neighbor_overlap ctx g3 i k
    let g5 := check_phase_3p ctx g4 i k
    let g6 := check_intron_loop ctx g5 i k
    check_truncated_introns ctx g6 i k

/-- The body of the outer `for i, group in enumerate(self.groups)` loop of
resolve_errors.  A fully-erroneous super locus gets a single
`MISMATCHING_STRANDS` error on its first transcript and is otherwise skipped
(`continue`); for an empty transcript list the source would raise
`IndexError` on `group['transcripts'][0]`, a case the builder never produces
(the flag is only set while iterating a transcript's exons) — modelled as a
no-op through `List.set`. -/
def resolve_group (ctx : GFFErrorHandlingCtx) (groups : List ImporterGroup)
    (i : Nat) : List ImporterGroup :=
  let g := getGroup groups i
  if g.super_locus.fully_erroneous then
    add_error ctx groups i 0 g.super_locus.start g.super_locus.end_
      g.super_locus.is_plus_strand MISMATCHING_STRANDS
  else
    (List.range g.transcripts.length).foldl
      (fun gs k => resolve_transcript ctx gs i k) groups

/-- The `is_backwards` predicate of
`GFFErrorHandling._remove_backwards_errors`. -/
def is_backwards (is_plus_strand : Bool) (e : FeatureImporter) : Bool :=
  decide ((is_plus_strand = true ∧ e.end_ < e.start) ∨
    (is_plus_strand = false ∧ e.end_ > e.start))

/-- `GFFErrorHandling._remove_backwards_errors`. -/
def remove_backwards_errors (is_plus_strand : Bool)
    (groups : List ImporterGroup) : List ImporterGroup :=
  groups.map fun g =>
    { g with transcripts := g.transcripts.map fun t =>
        { t with errors := t.errors.filter fun e => ¬ is_backwards is_plus_strand e } }

/-- `GFFErrorHandling.resolve_errors`. -/
def resolve_errors (ctx : GFFErrorHandlingCtx) (groups : List ImporterGroup) :
    List ImporterGroup :=
  remove_backwards_errors ctx.is_plus_strand
    ((List.range groups.length).foldl (fun gs i => resolve_group ctx gs i) groups)

/-- `GFFErrorHandling.__init__` followed by `resolve_errors`: read the strand
and coordinate off the first group, stable-sort the groups by
`super_locus.start` (descending on the minus strand; Python `list.sort` is
stable, as is insertion sort on a strict key comparison), then resolve.
`min_intron_length` is `self.controller.config['min_intron_length']`. -/
def GFFErrorHandling_run (min_intron_length : Int)
    (groups : List ImporterGroup) : List ImporterGroup :=
  match groups with
  | [] => []
  | g0 :: _ =>
    let plus := g0.super_locus.is_plus_strand
    let coord := g0.super_locus.coord
    let sorted :=
      if plus then
        groups.insertionSort fun a b => a.super_locus.start < b.super_locus.start
      else
        groups.insertionSort fun a b => b.super_locus.start < a.super_locus.start
    resolve_errors
      { is_plus_strand := plus, coord := coord,
        min_intron_length := min_intron_length } sorted

/-! ## Intron derivation by interval subtraction
(`OrganizedGeenuffImporterGroup._parse_gff_entries`, lines 191–253) -/

/-- `intervaltree.chop(a, b)` applied to one stored half-open interval
`p = [x, y)`: the nonempty parts of `[x, y) \ [a, b)`. -/
def chop_interval (a b : Int) (p : Int × Int) : List (Int × Int) :=
  (if p.1 < imin a p.2 then [(p.1, imin a p.2)] else []) ++
    (if imax b p.1 < p.2 then [(imax b p.1, p.2)] else [])

/-- The interval tree after `itree.chop(...)` for every exon, as a list of the
remaining intervals. -/
def chop_all (init : List (Int × Int)) (chops : List (Int × Int)) :
    List (Int × Int) :=
  chops.foldl (fun acc c => acc.flatMap (chop_interval c.1 c.2)) init

/-- The intron intervals the builder derives for one transcript: seed the tree
with the transcript extent (`sorted([tf_i.start, tf_i.end])`), chop out every
exon's sorted normalized interval, swap each residual interval's ends on
the minus strand, sort ascending by `start`, and reverse the list for a
minus-strand transcript.  (The separate overlap placeholder "backwards"
introns of lines 207–233 are not part of the subtraction residue; the
resolver later converts them into `overlapping_exons` errors and removes
them.) -/
def derive_introns (is_plus_strand : Bool) (t_start t_end : Int)
    (exons : List (Int × Int)) : List (Int × Int) :=
  let residual := chop_all [(imin t_start t_end, imax t_start t_end)]
    (exons.map fun e => (imin e.1 e.2, imax e.1 e.2))
  let introns := residual.map fun iv =>
    if is_plus_strand then iv else (iv.2, iv.1)
  let sorted := introns.insertionSort fun x y => x.1 < y.1
  if is_plus_strand then sorted else sorted.reverse

theorem chop_interval_strict (a b : Int) (p q : Int × Int)
    (hq : q ∈ chop_interval a b p) : q.1 < q.2 := by
  unfold chop_interval at hq
  rcases List.mem_append.mp hq with h | h
  · by_cases hc : p.1 < imin a p.2
    · rw [if_pos hc] at h
      rcases List.mem_singleton.mp h with rfl
      exact hc
    · rw [if_neg hc] at h; simp at h
  · by_cases hc : imax b p.1 < p.2
    · rw [if_pos hc] at h
      rcases List.mem_singleton.mp h with rfl
      exact hc
    · rw [if_neg hc] at h; simp at h

theorem chop_all_strict (chops : List (Int × Int)) :
    ∀ (init : List (Int × Int)), (∀ p ∈ init, p.1 < p.2) →
      ∀ q ∈ chop_all init chops, q.1 < q.2 := by
  induction chops with
  | nil => intro init h q hq; exact h q hq
  | cons c cs ih =>
    intro init h q hq
    refine ih (init.flatMap (chop_interval c.1 c.2)) ?_ q hq
    intro p hp
    obtain ⟨p0, _, hp⟩ := List.mem_flatMap.mp hp
    exact chop_interval_strict c.1 c.2 p0 p hp

theorem derive_introns_strict (is_plus_strand : Bool) (t_start t_end : Int)
    (exons : List (Int × Int)) (hne : t_start ≠ t_end) :
    ∀ iv ∈ derive_introns is_plus_strand t_start t_end exons,
      (is_plus_strand = true → iv.1 < iv.2) ∧
      (is_plus_strand = false → iv.2 < iv.1) := by
  intro iv hiv
  have hinit : ∀ p ∈ [(imin t_start t_end, imax t_start t_end)], p.1 < p.2 := by
    intro p hp
    rcases List.mem_singleton.mp hp with rfl
    unfold imin imax
    rcases le_or_lt t_start t_end with h | h
    · simp only [if_pos h]
      exact lt_of_le_of_ne h hne
    · simp only [if_neg (not_le.mpr h)]
      exact h
  have hres := chop_all_strict
    (exons.map fun e => (imin e.1 e.2, imax e.1 e.2))
    [(imin t_start t_end, imax t_start t_end)] hinit
  unfold derive_introns at hiv
  cases is_plus_strand with
  | true =>
    rw [if_pos rfl] at hiv
    have hiv2 := ((List.perm_insertionSort _ _).mem_iff).mp hiv
    obtain ⟨q, hq, hqeq⟩ := List.mem_map.mp hiv2
    rw [if_pos rfl] at hqeq
    have hstrict := hres q hq
    subst hqeq
    exact ⟨fun _ => hstrict, fun h => by simp at h⟩
  | false =>
    rw [if_neg (by simp)] at hiv
    rw [List.mem_reverse] at hiv
    have hiv2 := ((List.perm_insertionSort _ _).mem_iff).mp hiv
    obtain ⟨q, hq, hqeq⟩ := List.mem_map.mp hiv2
    rw [if_neg (by simp)] at hqeq
    have hstrict := hres q hq
    subst hqeq
    exact ⟨fun h => by simp at h, fun _ => hstrict⟩

/-! ## Claim C1 -/

/-- Every feature of a resolved group: the transcript-region feature, the
CDS-region feature (when coding), the derived introns, and the error
features. -/
def all_features (g : ImporterGroup) : List FeatureImporter :=
  g.transcripts.flatMap fun t =>
    t.transcript_feature :: (t.cds.toList ++ t.introns ++ t.errors)

/-- C1 counterexample scenario: two plus-strand super loci that touch
(`prev.end = 50 = next.start`), the second with a missing 5′ UTR
(`cds.start = tf.start = 50`).  The border mark between the loci is
`50 + offset(0) = 50`, so the `missing_utr_5p` error spans `50–50`: zero
length, but not at the sequence edge, so the guard keeps it, and it is not
backwards, so `_remove_backwards_errors` keeps it too. -/
def c1_seq : List Char :=
  List.replicate 50 'C' ++ ['A', 'T', 'G'] ++ List.replicate 34 'C' ++
    ['T', 'A', 'A'] ++ List.replicate 10 'C'

def c1_coordinate : Coordinate :=
  { seqid := "chr1", length := 100, sequence := c1_seq }

def c1_transcriptA : TranscriptGroup :=
  { transcript := { id := 0 },
    transcript_feature :=
      { coord := c1_coordinate, is_plus_strand := true,
        feature_type := GEENUFF_TRANSCRIPT, start := 10, end_ := 50 } }

def c1_groupA : ImporterGroup :=
  { super_locus :=
      { coord := c1_coordinate, is_plus_strand := true, start := 10, end_ := 50 },
    transcripts := [c1_transcriptA] }

def c1_transcriptB : TranscriptGroup :=
  { transcript := { id := 1 },
    transcript_feature :=
      { coord := c1_coordinate, is_plus_strand := true,
        feature_type := GEENUFF_TRANSCRIPT, start := 50, end_ := 100 },
    cds := some
      { coord := c1_coordinate, is_plus_strand := true,
        feature_type := GEENUFF_CDS, start := 50, end_ := 90 } }

def c1_groupB : ImporterGroup :=
  { super_locus :=
      { coord := c1_coordinate, is_plus_strand := true, start := 50, end_ := 100 },
    transcripts := [c1_transcriptB] }

set_option maxRecDepth 10000 in
def c1_run : List ImporterGroup := GFFErrorHandling_run 20 [c1_groupA, c1_groupB]

set_option maxRecDepth 400000 in
/-- C1 counterexample: after the importer's error resolver has run on this
input, a `missing_utr_5p` error feature with `start = end = 50` on the plus
strand remains, so "is_plus_strand ⇒ start < end" fails for the remaining
features. -/
theorem strand_coordinate_invariant_counterexample :
    mk_error c1_coordinate true MISSING_UTR_5P 50 50 ∈ (getT c1_run 1 0).errors ∧
    ¬ (∀ g ∈ c1_run, ∀ e ∈ all_features g,
        (e.is_plus_strand = true → e.start < e.end_) ∧
        (e.is_plus_strand = false → e.end_ < e.start)) := by
  constructor
  · decide
  · decide

/-- C1 (amended): features remaining after the resolver satisfy the
strand-aware ordering only non-strictly for error features — a zero-length
error (`start = end`) survives when its span is not at a sequence edge —
while features whose coordinates come straight from a (1-based inclusive,
hence `gff_start ≤ gff_end`) GFF entry via the normalizer, and introns
derived by interval subtraction, satisfy the strict inequality:
(1) every error kept by `_remove_backwards_errors` has `start ≤ end` on the
plus strand and `start ≥ end` on the minus strand;
(2) `set_start_end_from_gff` yields `start < end` on plus and `start > end`
on minus;
(3) every interval-subtraction intron satisfies the strict inequality. -/
theorem strand_coordinate_invariant_amended (plus : Bool)
    (groups : List ImporterGroup) (f : FeatureImporter) (gff_start gff_end : Int)
    (t_start t_end : Int) (exons : List (Int × Int))
    (hgff : gff_start ≤ gff_end) (hne : t_start ≠ t_end) :
    (∀ g ∈ remove_backwards_errors plus groups, ∀ t ∈ g.transcripts,
      ∀ e ∈ t.errors,
        (plus = true → e.start ≤ e.end_) ∧ (plus = false → e.end_ ≤ e.start)) ∧
    ((f.is_plus_strand = true →
        (f.set_start_end_from_gff gff_start gff_end).start <
          (f.set_start_end_from_gff gff_start gff_end).end_) ∧
      (f.is_plus_strand = false →
        (f.set_start_end_from_gff gff_start gff_end).end_ <
          (f.set_start_end_from_gff gff_start gff_end).start)) ∧
    (∀ iv ∈ derive_introns plus t_start t_end exons,
      (plus = true → iv.1 < iv.2) ∧ (plus = false → iv.2 < iv.1)) := by
  refine ⟨?_, ?_, derive_introns_strict plus t_start t_end exons hne⟩
  · intro g hg t ht e he
    obtain ⟨g0, _, rfl⟩ := List.mem_map.mp hg
    obtain ⟨t0, _, rfl⟩ := List.mem_map.mp ht
    have h0 := List.of_mem_filter he
    have h1 : ¬ (is_backwards plus e = true) := by simpa using h0
    unfold is_backwards at h1
    simp only [decide_eq_true_iff] at h1
    push_neg at h1
    obtain ⟨hA, hB⟩ := h1
    exact ⟨hA, hB⟩
  · cases hf : f.is_plus_strand with
    | true =>
      refine ⟨fun _ => ?_, fun h => absurd h (by decide)⟩
      simp [FeatureImporter.set_start_end_from_gff, get_geenuff_start_end, hf]
      omega
    | false =>
      refine ⟨fun h => absurd h (by decide), fun _ => ?_⟩
      simp [FeatureImporter.set_start_end_from_gff, get_geenuff_start_end, hf]
      omega

theorem strand_coordinate_invariant_amended_witness :
    ((1 : Int) ≤ 10 ∧ (0 : Int) ≠ 50) ∧
    ((∀ g ∈ remove_backwards_errors true [c1_groupA, c1_groupB],
        ∀ t ∈ g.transcripts, ∀ e ∈ t.errors,
          (true = true → e.start ≤ e.end_) ∧ (true = false → e.end_ ≤ e.start)) ∧
      ((dflt_feature.is_plus_strand = true →
          (dflt_feature.set_start_end_from_gff 1 10).start <
            (dflt_feature.set_start_end_from_gff 1 10).end_) ∧
        (dflt_feature.is_plus_strand = false →
          (dflt_feature.set_start_end_from_gff 1 10).end_ <
            (dflt_feature.set_start_end_from_gff 1 10).start)) ∧
      (∀ iv ∈ derive_introns true 0 50 [(10, 20)],
        (true = true → iv.1 < iv.2) ∧ (true = false → iv.2 < iv.1))) :=
  ⟨⟨by decide, by decide⟩,
    strand_coordinate_invariant_amended true [c1_groupA, c1_groupB] dflt_feature
      1 10 0 50 [(10, 20)] (by decide) (by decide)⟩

/-! ## State-access lemmas for the resolver embedding -/

theorem list_getD_set_self {α : Type _} :
    ∀ (l : List α) (n : Nat) (a d : α), n < l.length →
      (l.set n a).getD n d = a := by
  intro l
  induction l with
  | nil => intro n a d h; simp at h
  | cons x xs ih =>
    intro n a d h
    cases n with
    | zero => rfl
    | succ n => exact ih n a d (by simpa using h)

theorem getGroup_modifyT_self (groups : List ImporterGroup) (i k : Nat)
    (f : TranscriptGroup → TranscriptGroup) (hi : i < groups.length) :
    getGroup (modifyT groups i k f) i =
      { getGroup groups i with
        transcripts := (getGroup groups i).transcripts.set k (f (getT groups i k)) } := by
  unfold modifyT setT getGroup
  exact list_getD_set_self groups i _ dflt_group hi

theorem getT_modifyT_self (groups : List ImporterGroup) (i k : Nat)
    (f : TranscriptGroup → TranscriptGroup) (hi : i < groups.length)
    (hk : k < (getGroup groups i).transcripts.length) :
    getT (modifyT groups i k f) i k = f (getT groups i k) := by
  unfold getT
  rw [getGroup_modifyT_self groups i k f hi]
  exact list_getD_set_self _ k _ dflt_transcript_group hk

theorem length_modifyT (groups : List ImporterGroup) (i k : Nat)
    (f : TranscriptGroup → TranscriptGroup) :
    (modifyT groups i k f).length = groups.length := by
  unfold modifyT setT
  exact List.length_set groups i _

theorem transcripts_length_modifyT (groups : List ImporterGroup) (i k : Nat)
    (f : TranscriptGroup → TranscriptGroup) (hi : i < groups.length) :
    (getGroup (modifyT groups i k f) i).transcripts.length =
      (getGroup groups i).transcripts.length := by
  rw [getGroup_modifyT_self groups i k f hi]
  exact List.length_set _ k _

theorem length_mark_start (groups : List ImporterGroup) (i k : Nat) :
    ∀ h : Handler, (mark_start_not_biological groups i k h).length = groups.length := by
  intro h
  cases h <;> simp only [mark_start_not_biological] <;>
    first
    | exact length_modifyT groups i k _
    | rfl

theorem length_mark_end (groups : List ImporterGroup) (i k : Nat) :
    ∀ h : Handler, (mark_end_not_biological groups i k h).length = groups.length := by
  intro h
  cases h <;> simp only [mark_end_not_biological] <;>
    first
    | exact length_modifyT groups i k _
    | rfl

theorem transcripts_length_mark_start (groups : List ImporterGroup) (i k : Nat)
    (hi : i < groups.length) :
    ∀ h : Handler,
      (getGroup (mark_start_not_biological groups i k h) i).transcripts.length =
        (getGroup groups i).transcripts.length := by
  intro h
  cases h <;> simp only [mark_start_not_biological] <;>
    first
    | exact transcripts_length_modifyT groups i k _ hi
    | rfl

theorem transcripts_length_mark_end (groups : List ImporterGroup) (i k : Nat)
    (hi : i < groups.length) :
    ∀ h : Handler,
      (getGroup (mark_end_not_biological groups i k h) i).transcripts.length =
        (getGroup groups i).transcripts.length := by
  intro h
  cases h <;> simp only [mark_end_not_biological] <;>
    first
    | exact transcripts_length_modifyT groups i k _ hi
    | rfl

/-! ## Claim C5 -/

/-- Errors of every transcript of all groups, of one feature type. -/
def count_errors_of_type (groups : List ImporterGroup) (ty : String) : Nat :=
  ((groups.flatMap fun g => g.transcripts.flatMap fun t => t.errors).filter
    fun e => e.feature_type = ty).length

/-- C5 (amended): when the resolver reaches the `cds.start == tf.start` check
of a coding transcript, the `_add_overlapping_error` call it makes always
sets `start_is_biological_start = False` on both the CDS feature and (via
`mark_other_handlers=[tf]`) the transcript-region feature, and appends
exactly one `missing_utr_5p` error — from the upstream anchor to the CDS
start — unless that span is zero-length at the sequence edge, in which case
no error is appended at all (the appended error can also be removed later by
nested-locus handling or the backwards-error pass). -/
theorem missing_utr_5p_amended (ctx : GFFErrorHandlingCtx)
    (groups : List ImporterGroup) (i k : Nat) (cds : FeatureImporter)
    (hi : i < groups.length)
    (hk : k < (getGroup groups i).transcripts.length)
    (hc : (getT groups i k).cds = some cds) :
    (getT (add_overlapping_error ctx groups i k .cds "5p" MISSING_UTR_5P false true)
        i k).transcript_feature.start_is_biological_start = false ∧
    (getT (add_overlapping_error ctx groups i k .cds "5p" MISSING_UTR_5P false true)
        i k).cds = some ({ cds with start_is_biological_start := false }) ∧
    (getT (add_overlapping_error ctx groups i k .cds "5p" MISSING_UTR_5P false true)
        i k).errors =
      (if zero_len_coords_at_sequence_edge ctx.is_plus_strand
          (anchor_5p ctx groups (getGroup groups i).super_locus.coord i) cds.start
          "5p" (getGroup groups i).super_locus.coord = true then
        (getT groups i k).errors
      else
        (getT groups i k).errors ++
          [mk_error ctx.coord ctx.is_plus_strand MISSING_UTR_5P
            (anchor_5p ctx groups (getGroup groups i).super_locus.coord i)
            cds.start]) := by
  have hhs : handler_start groups i k .cds = cds.start := by
    unfold handler_start
    rw [hc]
    rfl
  have hred : add_overlapping_error ctx groups i k .cds "5p" MISSING_UTR_5P false true =
      (if zero_len_coords_at_sequence_edge ctx.is_plus_strand
          (anchor_5p ctx groups (getGroup groups i).super_locus.coord i)
          (handler_start groups i k .cds) "5p"
          (getGroup groups i).super_locus.coord = true then
        mark_handlers_5p groups i k .cds true
      else
        add_error ctx (mark_handlers_5p groups i k .cds true) i k
          (anchor_5p ctx groups (getGroup groups i).super_locus.coord i)
          (handler_start groups i k .cds) ctx.is_plus_strand MISSING_UTR_5P) := rfl
  rw [hred, hhs]
  -- the marked transcript
  have hi1 : i < (mark_start_not_biological groups i k Handler.cds).length := by
    rw [length_mark_start]; exact hi
  have hk1 : k < (getGroup (mark_start_not_biological groups i k Handler.cds) i).transcripts.length := by
    rw [transcripts_length_mark_start groups i k hi]; exact hk
  have hmark : getT (mark_handlers_5p groups i k .cds true) i k =
      { getT groups i k with
        cds := some ({ cds with start_is_biological_start := false }),
        transcript_feature :=
          { (getT groups i k).transcript_feature with
            start_is_biological_start := false } } := by
    show getT (mark_start_not_biological
      (mark_start_not_biological groups i k .cds) i k .tf) i k = _
    rw [show mark_start_not_biological (mark_start_not_biological groups i k .cds) i k .tf =
        modifyT (mark_start_not_biological groups i k .cds) i k
          (fun t => { t with transcript_feature :=
            { t.transcript_feature with start_is_biological_start := false } }) from rfl]
    rw [getT_modifyT_self _ i k _ hi1 hk1]
    rw [show mark_start_not_biological groups i k .cds =
        modifyT groups i k (fun t =>
          { t with cds := t.cds.map fun c =>
            { c with start_is_biological_start := false } }) from rfl]
    rw [getT_modifyT_self groups i k _ hi hk]
    rw [hc]
    rfl
  by_cases hg : zero_len_coords_at_sequence_edge ctx.is_plus_strand
      (anchor_5p ctx groups (getGroup groups i).super_locus.coord i) cds.start
      "5p" (getGroup groups i).super_locus.coord = true
  · rw [if_pos hg, if_pos hg, hmark]
    exact ⟨rfl, rfl, rfl⟩
  · rw [if_neg hg, if_neg hg]
    have hi2 : i < (mark_handlers_5p groups i k .cds true).length := by
      show i < (mark_start_not_biological
        (mark_start_not_biological groups i k .cds) i k .tf).length
      rw [length_mark_start, length_mark_start]
      exact hi
    have hk2 : k < (getGroup (mark_handlers_5p groups i k .cds true) i).transcripts.length := by
      show k < (getGroup (mark_start_not_biological
        (mark_start_not_biological groups i k .cds) i k .tf) i).transcripts.length
      rw [transcripts_length_mark_start _ i k hi1, transcripts_length_mark_start groups i k hi]
      exact hk
    rw [show add_error ctx (mark_handlers_5p groups i k .cds true) i k
        (anchor_5p ctx groups (getGroup groups i).super_locus.coord i) cds.start
        ctx.is_plus_strand MISSING_UTR_5P =
      modifyT (mark_handlers_5p groups i k .cds true) i k (fun t =>
        { t with errors := t.errors ++
            [mk_error ctx.coord ctx.is_plus_strand MISSING_UTR_5P
              (anchor_5p ctx groups (getGroup groups i).super_locus.coord i)
              cds.start] }) from rfl]
    rw [getT_modifyT_self _ i k _ hi2 hk2, hmark]
    exact ⟨rfl, rfl, rfl⟩

/-- C5 counterexample scenario: a single plus-strand super locus at the very
start of its sequence, with `cds.start = tf.start = 0`.  The missing-UTR error
span is `0–0` at the sequence edge, so
`_zero_len_coords_at_sequence_edge` suppresses the error feature — yet the
biological-start flags are still cleared. -/
def c5_coordinate : Coordinate :=
  { seqid := "chr2", length := 10,
    sequence := ['A', 'T', 'G', 'C', 'C', 'T', 'G', 'A', 'C', 'C'] }

def c5_transcript : TranscriptGroup :=
  { transcript := { id := 3 },
    transcript_feature :=
      { coord := c5_coordinate, is_plus_strand := true,
        feature_type := GEENUFF_TRANSCRIPT, start := 0, end_ := 10 },
    cds := some
      { coord := c5_coordinate, is_plus_strand := true,
        feature_type := GEENUFF_CDS, start := 0, end_ := 8 } }

def c5_group : ImporterGroup :=
  { super_locus :=
      { coord := c5_coordinate, is_plus_strand := true, start := 0, end_ := 10 },
    transcripts := [c5_transcript] }

set_option maxRecDepth 100000 in
def c5_run : List ImporterGroup := GFFErrorHandling_run 20 [c5_group]

set_option maxRecDepth 400000 in
/-- C5 counterexample: this coding transcript has
`cds.start = tf.start` (`= 0`), yet the resolver produces zero
`missing_utr_5p` error features — not exactly one — while it does flip the
transcript-region feature's `start_is_biological_start` to `false`. -/
theorem missing_utr_5p_counterexample :
    ((getT [c5_group] 0 0).cds.map fun c => c.start) =
      some (getT [c5_group] 0 0).transcript_feature.start ∧
    count_errors_of_type c5_run MISSING_UTR_5P = 0 ∧
    (getT c5_run 0 0).transcript_feature.start_is_biological_start = false := by
  refine ⟨by decide, by decide, by decide⟩

def c5_witness_cds : FeatureImporter :=
  { coord := c1_coordinate, is_plus_strand := true,
    feature_type := GEENUFF_CDS, start := 50, end_ := 90 }

def c5_witness_ctx : GFFErrorHandlingCtx :=
  { is_plus_strand := true, coord := c1_coordinate, min_intron_length := 20 }

set_option maxRecDepth 100000 in
theorem missing_utr_5p_amended_witness :
    (0 < [c1_groupB].length ∧
      0 < (getGroup [c1_groupB] 0).transcripts.length ∧
      (getT [c1_groupB] 0 0).cds = some c5_witness_cds) ∧
    ((getT (add_overlapping_error c5_witness_ctx [c1_groupB] 0 0 .cds "5p"
        MISSING_UTR_5P false true) 0 0).transcript_feature.start_is_biological_start
        = false ∧
      (getT (add_overlapping_error c5_witness_ctx [c1_groupB] 0 0 .cds "5p"
        MISSING_UTR_5P false true) 0 0).cds =
        some ({ c5_witness_cds with start_is_biological_start := false }) ∧
      (getT (add_overlapping_error c5_witness_ctx [c1_groupB] 0 0 .cds "5p"
        MISSING_UTR_5P false true) 0 0).errors =
        (if zero_len_coords_at_sequence_edge c5_witness_ctx.is_plus_strand
            (anchor_5p c5_witness_ctx [c1_groupB]
              (getGroup [c1_groupB] 0).super_locus.coord 0) c5_witness_cds.start
            "5p" (getGroup [c1_groupB] 0).super_locus.coord = true then
          (getT [c1_groupB] 0 0).errors
        else
          (getT [c1_groupB] 0 0).errors ++
            [mk_error c5_witness_ctx.coord c5_witness_ctx.is_plus_strand
              MISSING_UTR_5P
              (anchor_5p c5_witness_ctx [c1_groupB]
                (getGroup [c1_groupB] 0).super_locus.coord 0)
              c5_witness_cds.start])) :=
  ⟨⟨by decide, by decide, by decide⟩,
    missing_utr_5p_amended c5_witness_ctx [c1_groupB] 0 0 c5_witness_cds
      (by decide) (by decide) (by decide)⟩

/-! ## Claim C6 -/

/-- Shared spec of `_add_overlapping_error(i, t, cds, '3p', ty)` with no
`mark_other_handlers`: clears the CDS end flag and appends one error from
`cds.end` to the downstream anchor unless the span is zero-length at the
sequence edge. -/
theorem add_overlapping_error_3p_cds_spec (ctx : GFFErrorHandlingCtx)
    (groups : List ImporterGroup) (i k : Nat) (cds : FeatureImporter)
    (ty : String) (hi : i < groups.length)
    (hk : k < (getGroup groups i).transcripts.length)
    (hc : (getT groups i k).cds = some cds) :
    (getT (add_overlapping_error ctx groups i k .cds "3p" ty false false) i k).cds
        = some ({ cds with end_is_biological_end := false }) ∧
    (getT (add_overlapping_error ctx groups i k .cds "3p" ty false false) i k).errors =
      (if zero_len_coords_at_sequence_edge ctx.is_plus_strand cds.end_
          (anchor_3p ctx groups (getGroup groups i).super_locus.coord i) "3p"
          (getGroup groups i).super_locus.coord = true then
        (getT groups i k).errors
      else
        (getT groups i k).errors ++
          [mk_error ctx.coord ctx.is_plus_strand ty cds.end_
            (anchor_3p ctx groups (getGroup groups i).super_locus.coord i)]) := by
  have hhe : handler_end groups i k .cds = cds.end_ := by
    unfold handler_end
    rw [hc]
    rfl
  have hred : add_overlapping_error ctx groups i k .cds "3p" ty false false =
      (if zero_len_coords_at_sequence_edge ctx.is_plus_strand
          (handler_end groups i k .cds)
          (anchor_3p ctx groups (getGroup groups i).super_locus.coord i) "3p"
          (getGroup groups i).super_locus.coord = true then
        mark_handlers_3p groups i k .cds false
      else
        add_error ctx (mark_handlers_3p groups i k .cds false) i k
          (handler_end groups i k .cds)
          (anchor_3p ctx groups (getGroup groups i).super_locus.coord i)
          ctx.is_plus_strand ty) := rfl
  rw [hred, hhe]
  have hmark : getT (mark_handlers_3p groups i k .cds false) i k =
      { getT groups i k with
        cds := some ({ cds with end_is_biological_end := false }) } := by
    show getT (mark_end_not_biological groups i k .cds) i k = _
    rw [show mark_end_not_biological groups i k .cds =
        modifyT groups i k (fun t =>
          { t with cds := t.cds.map fun c =>
            { c with end_is_biological_end := false } }) from rfl]
    rw [getT_modifyT_self groups i k _ hi hk]
    rw [hc]
    rfl
  by_cases hg : zero_len_coords_at_sequence_edge ctx.is_plus_strand cds.end_
      (anchor_3p ctx groups (getGroup groups i).super_locus.coord i) "3p"
      (getGroup groups i).super_locus.coord = true
  · rw [if_pos hg, if_pos hg, hmark]
    exact ⟨rfl, rfl⟩
  · rw [if_neg hg, if_neg hg]
    have hi2 : i < (mark_handlers_3p groups i k .cds false).length := by
      show i < (mark_end_not_biological groups i k .cds).length
      rw [length_mark_end]
      exact hi
    have hk2 : k < (getGroup (mark_handlers_3p groups i k .cds false) i).transcripts.length := by
      show k < (getGroup (mark_end_not_biological groups i k .cds) i).transcripts.length
      rw [transcripts_length_mark_end groups i k hi]
      exact hk
    rw [show add_error ctx (mark_handlers_3p groups i k .cds false) i k cds.end_
        (anchor_3p ctx groups (getGroup groups i).super_locus.coord i)
        ctx.is_plus_strand ty =
      modifyT (mark_handlers_3p groups i k .cds false) i k (fun t =>
        { t with errors := t.errors ++
            [mk_error ctx.coord ctx.is_plus_strand ty cds.end_
              (anchor_3p ctx groups (getGroup groups i).super_locus.coord i)] })
      from rfl]
    rw [getT_modifyT_self _ i k _ hi2 hk2, hmark]
    exact ⟨rfl, rfl⟩

/-- C6 (amended): the mismatched-3′-phase check runs only for a coding
transcript whose derived intron list is non-empty; in that case the resolver
makes the error-producing call exactly when the recorded 3′ phase differs from
the final coding exon's length (CDS end back to the `_3p_cds_start` point)
taken mod 3 — the appended error spans CDS end to the downstream anchor, and
is suppressed only if zero-length at the sequence edge.  A coding transcript
without introns is never checked. -/
theorem mismatched_phase_3p_amended (ctx : GFFErrorHandlingCtx)
    (groups : List ImporterGroup) (i k : Nat) (cds : FeatureImporter)
    (hi : i < groups.length)
    (hk : k < (getGroup groups i).transcripts.length)
    (hc : (getT groups i k).cds = some cds) :
    ((getT groups i k).introns = [] → check_phase_3p ctx groups i k = groups) ∧
    ((getT groups i k).introns ≠ [] →
      (cds.phase_3p ≠ iabs (cds.end_ -
          cds_start_3p ctx.is_plus_strand cds (getT groups i k).introns) % 3 →
        check_phase_3p ctx groups i k =
          add_overlapping_error ctx groups i k .cds "3p" MISMATCHED_PHASE_3P
            false false) ∧
      (cds.phase_3p = iabs (cds.end_ -
          cds_start_3p ctx.is_plus_strand cds (getT groups i k).introns) % 3 →
        check_phase_3p ctx groups i k = groups)) := by
  have hred : check_phase_3p ctx groups i k =
      (if (getT groups i k).introns ≠ [] then
        (if cds.phase_3p ≠ iabs (cds.end_ -
            cds_start_3p ctx.is_plus_strand cds (getT groups i k).introns) % 3 then
          add_overlapping_error ctx groups i k .cds "3p" MISMATCHED_PHASE_3P
            false false
        else groups)
      else groups) := by
    unfold check_phase_3p
    rw [hc]
  rw [hred]
  refine ⟨fun h0 => ?_, fun h0 => ⟨fun hne => ?_, fun heq => ?_⟩⟩
  · rw [if_neg (by simpa using h0)]
  · rw [if_pos h0, if_pos hne]
  · rw [if_pos h0, if_neg (by simpa using heq)]

/-- C6 counterexample scenario: a single coding transcript with no introns and
a recorded 3′ phase of 0, although the CDS length mod 3 is 2. -/
def c6_seq : List Char :=
  List.replicate 20 'C' ++ ['A', 'T', 'G'] ++ List.replicate 14 'C' ++
    ['T', 'A', 'A'] ++ List.replicate 20 'C'

def c6_coordinate : Coordinate :=
  { seqid := "chr3", length := 60, sequence := c6_seq }

def c6_cds : FeatureImporter :=
  { coord := c6_coordinate, is_plus_strand := true,
    feature_type := GEENUFF_CDS, start := 20, end_ := 40, phase_3p := 0 }

def c6_transcript : TranscriptGroup :=
  { transcript := { id := 4 },
    transcript_feature :=
      { coord := c6_coordinate, is_plus_strand := true,
        feature_type := GEENUFF_TRANSCRIPT, start := 10, end_ := 50 },
    cds := some c6_cds }

def c6_group : ImporterGroup :=
  { super_locus :=
      { coord := c6_coordinate, is_plus_strand := true, start := 0, end_ := 60 },
    transcripts := [c6_transcript] }

set_option maxRecDepth 100000 in
def c6_run : List ImporterGroup := GFFErrorHandling_run 20 [c6_group]

set_option maxRecDepth 400000 in
/-- C6 counterexample: for this intron-free coding transcript the number of
bases of the final coding exon mod 3 (`|40 − 20| % 3 = 2`) differs from the
recorded 3′ phase (`0`), so the claim demands a mismatched-3′-phase error, yet
the resolver (which checks only `if introns:`) produces none. -/
theorem mismatched_phase_3p_counterexample :
    (getT [c6_group] 0 0).introns = [] ∧
    c6_cds.phase_3p ≠
      iabs (c6_cds.end_ - cds_start_3p true c6_cds (getT [c6_group] 0 0).introns) % 3 ∧
    count_errors_of_type c6_run MISMATCHED_PHASE_3P = 0 := by
  refine ⟨by decide, by decide, by decide⟩

set_option maxRecDepth 100000 in
theorem mismatched_phase_3p_amended_witness :
    (0 < [c6_group].length ∧
      0 < (getGroup [c6_group] 0).transcripts.length ∧
      (getT [c6_group] 0 0).cds = some c6_cds) ∧
    (((getT [c6_group] 0 0).introns = [] →
        check_phase_3p c5_witness_ctx [c6_group] 0 0 = [c6_group]) ∧
      ((getT [c6_group] 0 0).introns ≠ [] →
        (c6_cds.phase_3p ≠ iabs (c6_cds.end_ -
            cds_start_3p c5_witness_ctx.is_plus_strand c6_cds
              (getT [c6_group] 0 0).introns) % 3 →
          check_phase_3p c5_witness_ctx [c6_group] 0 0 =
            add_overlapping_error c5_witness_ctx [c6_group] 0 0 .cds "3p"
              MISMATCHED_PHASE_3P false false) ∧
        (c6_cds.phase_3p = iabs (c6_cds.end_ -
            cds_start_3p c5_witness_ctx.is_plus_strand c6_cds
              (getT [c6_group] 0 0).introns) % 3 →
          check_phase_3p c5_witness_ctx [c6_group] 0 0 = [c6_group]))) :=
  ⟨⟨by decide, by decide, by decide⟩,
    mismatched_phase_3p_amended c5_witness_ctx [c6_group] 0 0 c6_cds
      (by decide) (by decide) (by decide)⟩

/-! ## Claim C9 -/

/-- The default config of `ImportController.__init__`:
`self.config = {'min_intron_length': 20}`. -/
def default_config : List (String × Int) := [("min_intron_length", 20)]

/-- Python `dict.update`: the user config's bindings override the defaults.
A dict is modelled as an association list where the last binding of a key
wins. -/
def import_controller_config (user_config : List (String × Int)) :
    List (String × Int) :=
  default_config ++ user_config

/-- Dict lookup (last binding wins). -/
def cfg_get (config : List (String × Int)) (key : String) : Option Int :=
  (config.reverse.find? fun p => p.1 = key).map fun p => p.2

/-- `self.controller.config['min_intron_length']` as the resolver reads it.
The default binding is always present, so the lookup cannot fail; `getD 0`
is never taken. -/
def effective_min_intron_length (user_config : List (String × Int)) : Int :=
  (cfg_get (import_controller_config user_config) "min_intron_length").getD 0

theorem intron_loop_entries_mem_mono (is_plus_strand : Bool)
    (min_intron_length : Int) (tf : FeatureImporter)
    (introns : List FeatureImporter) (e : Int × Int × String) :
    ∀ (js : List Nat) (acc : List (Int × Int × String) × List Nat),
      e ∈ acc.1 →
      e ∈ (js.foldl (intron_loop_step is_plus_strand min_intron_length tf introns)
        acc).1 := by
  intro js
  induction js with
  | nil => intro acc h; exact h
  | cons j js ih =>
    intro acc h
    refine ih _ ?_
    by_cases hb : (tf.is_plus_strand = true ∧
        (introns.getD j dflt_feature).end_ < (introns.getD j dflt_feature).start) ∨
      (is_plus_strand = false ∧
        (introns.getD j dflt_feature).end_ > (introns.getD j dflt_feature).start)
    · unfold intron_loop_step
      rw [if_pos hb]
      dsimp only
      exact List.mem_append.mpr (Or.inl h)
    · by_cases hs : iabs ((introns.getD j dflt_feature).end_ -
          (introns.getD j dflt_feature).start) < min_intron_length
      · unfold intron_loop_step
        rw [if_neg hb, if_pos hs]
        dsimp only
        exact List.mem_append.mpr (Or.inl h)
      · unfold intron_loop_step
        rw [if_neg hb, if_neg hs]
        exact h

theorem intron_loop_entries_too_short_mem (is_plus_strand : Bool)
    (min_intron_length : Int) (tf : FeatureImporter)
    (introns : List FeatureImporter) (j : Nat)
    (hnb : ¬ ((tf.is_plus_strand = true ∧
        (introns.getD j dflt_feature).end_ < (introns.getD j dflt_feature).start) ∨
      (is_plus_strand = false ∧
        (introns.getD j dflt_feature).end_ > (introns.getD j dflt_feature).start)))
    (hshort : iabs ((introns.getD j dflt_feature).end_ -
        (introns.getD j dflt_feature).start) < min_intron_length) :
    ∀ (js : List Nat) (acc : List (Int × Int × String) × List Nat), j ∈ js →
      ((introns.getD j dflt_feature).start, (introns.getD j dflt_feature).end_,
        TOO_SHORT_INTRON) ∈
      (js.foldl (intron_loop_step is_plus_strand min_intron_length tf introns)
        acc).1 := by
  intro js
  induction js with
  | nil => intro acc h; simp at h
  | cons j0 js ih =>
    intro acc hmem
    rcases List.mem_cons.mp hmem with rfl | hmem
    · refine intron_loop_entries_mem_mono _ _ _ _ _ js _ ?_
      unfold intron_loop_step
      rw [if_neg hnb, if_pos hshort]
      dsimp only
      exact List.mem_append.mpr (Or.inr (List.mem_singleton.mpr rfl))
    · exact ih _ hmem

theorem foldl_add_error_length (ctx : GFFErrorHandlingCtx) (i k : Nat) :
    ∀ (adds : List (Int × Int × String)) (groups : List ImporterGroup),
      (adds.foldl (fun gs e => add_error ctx gs i k e.1 e.2.1 ctx.is_plus_strand e.2.2)
        groups).length = groups.length := by
  intro adds
  induction adds with
  | nil => intro groups; rfl
  | cons a as ih =>
    intro groups
    rw [List.foldl_cons, ih]
    rw [show add_error ctx groups i k a.1 a.2.1 ctx.is_plus_strand a.2.2 =
      modifyT groups i k (fun t =>
        { t with errors := t.errors ++
            [mk_error ctx.coord ctx.is_plus_strand a.2.2 a.1 a.2.1] }) from rfl]
    exact length_modifyT groups i k _

theorem foldl_add_error_tlength (ctx : GFFErrorHandlingCtx) (i k : Nat) :
    ∀ (adds : List (Int × Int × String)) (groups : List ImporterGroup),
      i < groups.length →
      (getGroup (adds.foldl
          (fun gs e => add_error ctx gs i k e.1 e.2.1 ctx.is_plus_strand e.2.2)
          groups) i).transcripts.length =
        (getGroup groups i).transcripts.length := by
  intro adds
  induction adds with
  | nil => intro groups _; rfl
  | cons a as ih =>
    intro groups hi
    rw [List.foldl_cons]
    have hlen : (add_error ctx groups i k a.1 a.2.1 ctx.is_plus_strand a.2.2).length
        = groups.length := by
      rw [show add_error ctx groups i k a.1 a.2.1 ctx.is_plus_strand a.2.2 =
        modifyT groups i k (fun t =>
          { t with errors := t.errors ++
              [mk_error ctx.coord ctx.is_plus_strand a.2.2 a.1 a.2.1] }) from rfl]
      exact length_modifyT groups i k _
    rw [ih _ (by rw [hlen]; exact hi)]
    rw [show add_error ctx groups i k a.1 a.2.1 ctx.is_plus_strand a.2.2 =
      modifyT groups i k (fun t =>
        { t with errors := t.errors ++
            [mk_error ctx.coord ctx.is_plus_strand a.2.2 a.1 a.2.1] }) from rfl]
    exact transcripts_length_modifyT groups i k _ hi

theorem foldl_add_error_errors (ctx : GFFErrorHandlingCtx) (i k : Nat) :
    ∀ (adds : List (Int × Int × String)) (groups : List ImporterGroup),
      i < groups.length → k < (getGroup groups i).transcripts.length →
      (getT (adds.foldl
          (fun gs e => add_error ctx gs i k e.1 e.2.1 ctx.is_plus_strand e.2.2)
          groups) i k).errors =
        (getT groups i k).errors ++
          adds.map (fun e => mk_error ctx.coord ctx.is_plus_strand e.2.2 e.1 e.2.1) := by
  intro adds
  induction adds with
  | nil => intro groups hi hk; simp
  | cons a as ih =>
    intro groups hi hk
    have hrfl : add_error ctx groups i k a.1 a.2.1 ctx.is_plus_strand a.2.2 =
        modifyT groups i k (fun t =>
          { t with errors := t.errors ++
              [mk_error ctx.coord ctx.is_plus_strand a.2.2 a.1 a.2.1] }) := rfl
    have hi' : i < (add_error ctx groups i k a.1 a.2.1 ctx.is_plus_strand a.2.2).length := by
      rw [hrfl, length_modifyT]; exact hi
    have hk' : k < (getGroup (add_error ctx groups i k a.1 a.2.1 ctx.is_plus_strand
        a.2.2) i).transcripts.length := by
      rw [hrfl, transcripts_length_modifyT groups i k _ hi]; exact hk
    rw [List.foldl_cons, ih _ hi' hk']
    rw [hrfl, getT_modifyT_self groups i k _ hi hk]
    simp

theorem check_intron_loop_errors (ctx : GFFErrorHandlingCtx)
    (groups : List ImporterGroup) (i k : Nat) (cds : FeatureImporter)
    (hi : i < groups.length)
    (hk : k < (getGroup groups i).transcripts.length)
    (hc : (getT groups i k).cds = some cds) :
    (getT (check_intron_loop ctx groups i k) i k).errors =
      (getT groups i k).errors ++
        (intron_loop_entries ctx.is_plus_strand ctx.min_intron_length
          (getT groups i k).transcript_feature (getT groups i k).introns).1.map
          (fun e => mk_error ctx.coord ctx.is_plus_strand e.2.2 e.1 e.2.1) := by
  have hred : check_intron_loop ctx groups i k =
      modifyT ((intron_loop_entries ctx.is_plus_strand ctx.min_intron_length
          (getT groups i k).transcript_feature (getT groups i k).introns).1.foldl
        (fun gs e => add_error ctx gs i k e.1 e.2.1 ctx.is_plus_strand e.2.2)
        groups) i k (fun t2 =>
          { t2 with
            introns :=
              (((List.range t2.introns.length).filter
                  (fun j => j ∉ (intron_loop_entries ctx.is_plus_strand
                    ctx.min_intron_length (getT groups i k).transcript_feature
                    (getT groups i k).introns).2)).map
                (fun j => t2.introns.getD j dflt_feature)) }) := by
    unfold check_intron_loop
    rw [hc]
  rw [hred]
  have hi' : i < ((intron_loop_entries ctx.is_plus_strand ctx.min_intron_length
      (getT groups i k).transcript_feature (getT groups i k).introns).1.foldl
      (fun gs e => add_error ctx gs i k e.1 e.2.1 ctx.is_plus_strand e.2.2)
      groups).length := by
    rw [foldl_add_error_length]; exact hi
  have hk' : k < (getGroup ((intron_loop_entries ctx.is_plus_strand
      ctx.min_intron_length (getT groups i k).transcript_feature
      (getT groups i k).introns).1.foldl
      (fun gs e => add_error ctx gs i k e.1 e.2.1 ctx.is_plus_strand e.2.2)
      groups) i).transcripts.length := by
    rw [foldl_add_error_tlength ctx i k _ groups hi]; exact hk
  rw [getT_modifyT_self _ i k _ hi' hk']
  exact foldl_add_error_errors ctx i k _ groups hi hk

theorem find?_append_of_some {α : Type _} (p : α → Bool) :
    ∀ (l1 l2 : List α) (x : α), l1.find? p = some x → (l1 ++ l2).find? p = some x := by
  intro l1
  induction l1 with
  | nil => intro l2 x h; simp [List.find?] at h
  | cons a l1 ih =>
    intro l2 x h
    by_cases hp : p a = true
    · rw [List.find?_cons_of_pos _ hp] at h
      rw [List.cons_append, List.find?_cons_of_pos _ hp]
      exact h
    · rw [List.find?_cons_of_neg _ (by simpa using hp)] at h
      rw [List.cons_append, List.find?_cons_of_neg _ (by simpa using hp)]
      exact ih l2 x h

/-- C9 (amended): the too-short-intron check is controlled by the
configuration option `min_intron_length` (not the spec's
`minimum_intron_length`), an integer defaulting to 20: with no user config
the effective threshold is 20, a user binding of `min_intron_length`
overrides it, and for every non-backward intron whose length is strictly
below the effective threshold the resolver appends a `too_short_intron`
error feature spanning exactly that intron. -/
theorem min_intron_length_spec :
    effective_min_intron_length [] = 20 ∧
    (∀ (user : List (String × Int)) (v : Int),
      cfg_get user "min_intron_length" = some v →
      effective_min_intron_length user = v) ∧
    (∀ (ctx : GFFErrorHandlingCtx) (groups : List ImporterGroup) (i k : Nat)
      (cds : FeatureImporter) (j : Nat),
      i < groups.length →
      k < (getGroup groups i).transcripts.length →
      (getT groups i k).cds = some cds →
      j < (getT groups i k).introns.length →
      ¬ (((getT groups i k).transcript_feature.is_plus_strand = true ∧
          ((getT groups i k).introns.getD j dflt_feature).end_ <
            ((getT groups i k).introns.getD j dflt_feature).start) ∨
        (ctx.is_plus_strand = false ∧
          ((getT groups i k).introns.getD j dflt_feature).end_ >
            ((getT groups i k).introns.getD j dflt_feature).start)) →
      iabs (((getT groups i k).introns.getD j dflt_feature).end_ -
          ((getT groups i k).introns.getD j dflt_feature).start) <
        ctx.min_intron_length →
      mk_error ctx.coord ctx.is_plus_strand TOO_SHORT_INTRON
          ((getT groups i k).introns.getD j dflt_feature).start
          ((getT groups i k).introns.getD j dflt_feature).end_ ∈
        (getT (check_intron_loop ctx groups i k) i k).errors) := by
  refine ⟨by decide, ?_, ?_⟩
  · intro user v h
    unfold cfg_get at h
    unfold effective_min_intron_length import_controller_config cfg_get default_config
    rw [List.reverse_append]
    obtain ⟨p, hp, hpv⟩ := Option.map_eq_some'.mp h
    rw [find?_append_of_some _ _ _ _ hp]
    simpa using hpv
  · intro ctx groups i k cds j hi hk hc hj hnb hshort
    rw [check_intron_loop_errors ctx groups i k cds hi hk hc]
    refine List.mem_append.mpr (Or.inr ?_)
    refine List.mem_map.mpr ⟨(((getT groups i k).introns.getD j dflt_feature).start,
      ((getT groups i k).introns.getD j dflt_feature).end_, TOO_SHORT_INTRON), ?_, rfl⟩
    exact intron_loop_entries_too_short_mem ctx.is_plus_strand ctx.min_intron_length
      (getT groups i k).transcript_feature (getT groups i k).introns j hnb hshort
      (List.range (getT groups i k).introns.length) ([], [])
      (List.mem_range.mpr hj)

/-- C9 counterexample scenario: the user configures the spec's option name
`minimum_intron_length = 50`; the controller only recognizes
`min_intron_length`, so the effective threshold stays 20, and an intron of
length 30 (which is below the claimed configured value 50) produces no
`too_short_intron` error. -/
def c9_seq : List Char :=
  List.replicate 110 'C' ++ ['A', 'T', 'G'] ++ List.replicate 74 'C' ++
    ['T', 'A', 'A'] ++ List.replicate 60 'C'

def c9_coordinate : Coordinate :=
  { seqid := "chr4", length := 250, sequence := c9_seq }

def c9_intron : FeatureImporter :=
  { coord := c9_coordinate, is_plus_strand := true,
    feature_type := GEENUFF_INTRON, start := 140, end_ := 170 }

def c9_transcript : TranscriptGroup :=
  { transcript := { id := 5 },
    transcript_feature :=
      { coord := c9_coordinate, is_plus_strand := true,
        feature_type := GEENUFF_TRANSCRIPT, start := 100, end_ := 200 },
    cds := some
      { coord := c9_coordinate, is_plus_strand := true,
        feature_type := GEENUFF_CDS, start := 110, end_ := 190, phase_3p := 2 },
    introns := [c9_intron] }

def c9_group : ImporterGroup :=
  { super_locus :=
      { coord := c9_coordinate, is_plus_strand := true, start := 90, end_ := 210 },
    transcripts := [c9_transcript] }

set_option maxRecDepth 400000 in
def c9_run : List ImporterGroup :=
  GFFErrorHandling_run
    (effective_min_intron_length [("minimum_intron_length", 50)]) [c9_group]

set_option maxRecDepth 1000000 in
/-- C9 counterexample: configuring the claimed option name
`minimum_intron_length` to 50 leaves the effective threshold at the default
20, and the resolver emits no `too_short_intron` error for a length-30
intron even though 30 < 50. -/
theorem min_intron_length_counterexample :
    effective_min_intron_length [("minimum_intron_length", 50)] = 20 ∧
    iabs (c9_intron.end_ - c9_intron.start) < 50 ∧
    ¬ (c9_intron.end_ < c9_intron.start) ∧
    count_errors_of_type c9_run TOO_SHORT_INTRON = 0 := by
  refine ⟨by decide, by decide, by decide, by decide⟩

def c9_witness_intron : FeatureImporter :=
  { coord := c9_coordinate, is_plus_strand := true,
    feature_type := GEENUFF_INTRON, start := 150, end_ := 160 }

def c9_witness_cds : FeatureImporter :=
  { coord := c9_coordinate, is_plus_strand := true,
    feature_type := GEENUFF_CDS, start := 110, end_ := 190, phase_3p := 0 }

def c9_witness_transcript : TranscriptGroup :=
  { transcript := { id := 6 },
    transcript_feature :=
      { coord := c9_coordinate, is_plus_strand := true,
        feature_type := GEENUFF_TRANSCRIPT, start := 100, end_ := 200 },
    cds := some c9_witness_cds,
    introns := [c9_witness_intron] }

def c9_witness_group : ImporterGroup :=
  { super_locus :=
      { coord := c9_coordinate, is_plus_strand := true, start := 90, end_ := 210 },
    transcripts := [c9_witness_transcript] }

def c9_witness_ctx : GFFErrorHandlingCtx :=
  { is_plus_strand := true, coord := c9_coordinate, min_intron_length := 20 }

set_option maxRecDepth 400000 in
theorem min_intron_length_spec_witness :
    (cfg_get [("min_intron_length", 12)] "min_intron_length" = some 12 ∧
      effective_min_intron_length [("min_intron_length", 12)] = 12) ∧
    (0 < [c9_witness_group].length ∧
      0 < (getGroup [c9_witness_group] 0).transcripts.length ∧
      (getT [c9_witness_group] 0 0).cds = some c9_witness_cds ∧
      0 < (getT [c9_witness_group] 0 0).introns.length ∧
      iabs (((getT [c9_witness_group] 0 0).introns.getD 0 dflt_feature).end_ -
          ((getT [c9_witness_group] 0 0).introns.getD 0 dflt_feature).start) <
        c9_witness_ctx.min_intron_length) ∧
    mk_error c9_witness_ctx.coord c9_witness_ctx.is_plus_strand TOO_SHORT_INTRON
        ((getT [c9_witness_group] 0 0).introns.getD 0 dflt_feature).start
        ((getT [c9_witness_group] 0 0).introns.getD 0 dflt_feature).end_ ∈
      (getT (check_intron_loop c9_witness_ctx [c9_witness_group] 0 0) 0 0).errors :=
  ⟨⟨by decide, min_intron_length_spec.2.1 [("min_intron_length", 12)] 12 (by decide)⟩,
    ⟨by decide, by decide, by decide, by decide, by decide⟩,
    min_intron_length_spec.2.2 c9_witness_ctx [c9_witness_group] 0 0
      c9_witness_cds 0 (by decide) (by decide) (by decide) (by decide)
      (by decide) (by decide)⟩

/-! ## Claim C10 -/

/-- The `FeatureImporter` object a handler tag denotes, if any (`none` for a
`SuperLocusImporter` handler, which has no biological-boundary flags). -/
def handler_feature (groups : List ImporterGroup) (i k : Nat) :
    Handler → Option FeatureImporter
  | .cds => (getT groups i k).cds
  | .tf => some (getT groups i k).transcript_feature
  | .intron j => (getT groups i k).introns.get? j
  | .sl _ => none

theorem list_get?_set_self {α : Type _} :
    ∀ (l : List α) (n : Nat) (a : α), n < l.length → (l.set n a).get? n = some a := by
  intro l
  induction l with
  | nil => intro n a h; simp at h
  | cons x xs ih =>
    intro n a h
    cases n with
    | zero => rfl
    | succ n => exact ih n a (by simpa using h)

theorem list_get?_isSome_lt {α : Type _} :
    ∀ (l : List α) (n : Nat), (l.get? n).isSome = true → n < l.length := by
  intro l
  induction l with
  | nil => intro n h; simp [List.get?] at h
  | cons x xs ih =>
    intro n h
    cases n with
    | zero => simp
    | succ n => exact Nat.succ_lt_succ (ih n (by simpa [List.get?] using h))

theorem getT_mark_start_cds (groups : List ImporterGroup) (i k : Nat)
    (hi : i < groups.length) (hk : k < (getGroup groups i).transcripts.length) :
    getT (mark_start_not_biological groups i k .cds) i k =
      { getT groups i k with
        cds := (getT groups i k).cds.map fun c =>
          { c with start_is_biological_start := false } } := by
  rw [show mark_start_not_biological groups i k .cds =
      modifyT groups i k (fun t =>
        { t with cds := t.cds.map fun c =>
          { c with start_is_biological_start := false } }) from rfl]
  exact getT_modifyT_self groups i k _ hi hk

theorem getT_mark_start_tf (groups : List ImporterGroup) (i k : Nat)
    (hi : i < groups.length) (hk : k < (getGroup groups i).transcripts.length) :
    getT (mark_start_not_biological groups i k .tf) i k =
      { getT groups i k with
        transcript_feature :=
          { (getT groups i k).transcript_feature with
            start_is_biological_start := false } } := by
  rw [show mark_start_not_biological groups i k .tf =
      modifyT groups i k (fun t =>
        { t with transcript_feature :=
          { t.transcript_feature with start_is_biological_start := false } }) from rfl]
  exact getT_modifyT_self groups i k _ hi hk

theorem getT_mark_start_intron (groups : List ImporterGroup) (i k j : Nat)
    (hi : i < groups.length) (hk : k < (getGroup groups i).transcripts.length) :
    getT (mark_start_not_biological groups i k (.intron j)) i k =
      { getT groups i k with
        introns := (getT groups i k).introns.set j
          ({ (getT groups i k).introns.getD j dflt_feature with
            start_is_biological_start := false }) } := by
  rw [show mark_start_not_biological groups i k (.intron j) =
      modifyT groups i k (fun t =>
        { t with
          introns := t.introns.set j
            ({ t.introns.getD j dflt_feature with
              start_is_biological_start := false }) }) from rfl]
  exact getT_modifyT_self groups i k _ hi hk

theorem getT_mark_end_cds (groups : List ImporterGroup) (i k : Nat)
    (hi : i < groups.length) (hk : k < (getGroup groups i).transcripts.length) :
    getT (mark_end_not_biological groups i k .cds) i k =
      { getT groups i k with
        cds := (getT groups i k).cds.map fun c =>
          { c with end_is_biological_end := false } } := by
  rw [show mark_end_not_biological groups i k .cds =
      modifyT groups i k (fun t =>
        { t with cds := t.cds.map fun c =>
          { c with end_is_biological_end := false } }) from rfl]
  exact getT_modifyT_self groups i k _ hi hk

theorem getT_mark_end_tf (groups : List ImporterGroup) (i k : Nat)
    (hi : i < groups.length) (hk : k < (getGroup groups i).transcripts.length) :
    getT (mark_end_not_biological groups i k .tf) i k =
      { getT groups i k with
        transcript_feature :=
          { (getT groups i k).transcript_feature with
            end_is_biological_end := false } } := by
  rw [show mark_end_not_biological groups i k .tf =
      modifyT groups i k (fun t =>
        { t with transcript_feature :=
          { t.transcript_feature with end_is_biological_end := false } }) from rfl]
  exact getT_modifyT_self groups i k _ hi hk

theorem getT_mark_end_intron (groups : List ImporterGroup) (i k j : Nat)
    (hi : i < groups.length) (hk : k < (getGroup groups i).transcripts.length) :
    getT (mark_end_not_biological groups i k (.intron j)) i k =
      { getT groups i k with
        introns := (getT groups i k).introns.set j
          ({ (getT groups i k).introns.getD j dflt_feature with
            end_is_biological_end := false }) } := by
  rw [show mark_end_not_biological groups i k (.intron j) =
      modifyT groups i k (fun t =>
        { t with
          introns := t.introns.set j
            ({ t.introns.getD j dflt_feature with
              end_is_biological_end := false }) }) from rfl]
  exact getT_modifyT_self groups i k _ hi hk

theorem mark_handlers_5p_spec (groups : List ImporterGroup) (i k : Nat)
    (hi : i < groups.length) (hk : k < (getGroup groups i).transcripts.length)
    (h : Handler) (mark_tf : Bool)
    (hs : (handler_feature groups i k h).isSome = true) :
    ((handler_feature (mark_handlers_5p groups i k h mark_tf) i k h).map
      (fun f => f.start_is_biological_start) = some false) ∧
    (mark_tf = true →
      (getT (mark_handlers_5p groups i k h mark_tf) i k).transcript_feature.start_is_biological_start
        = false) ∧
    (getT (mark_handlers_5p groups i k h mark_tf) i k).errors =
      (getT groups i k).errors := by
  have hi1 : i < (mark_start_not_biological groups i k h).length := by
    rw [length_mark_start]; exact hi
  have hk1 : k < (getGroup (mark_start_not_biological groups i k h) i).transcripts.length := by
    rw [transcripts_length_mark_start groups i k hi]; exact hk
  cases mark_tf with
  | false =>
    have hm : mark_handlers_5p groups i k h false =
        mark_start_not_biological groups i k h := rfl
    rw [hm]
    refine ⟨?_, fun hcontra => by simp at hcontra, ?_⟩
    · cases h with
      | cds =>
        obtain ⟨c, hc⟩ := Option.isSome_iff_exists.mp hs
        show ((getT (mark_start_not_biological groups i k .cds) i k).cds).map _ = _
        rw [getT_mark_start_cds groups i k hi hk]
        have hc2 : (getT groups i k).cds = some c := hc
        simp [hc2]
      | tf =>
        show some ((getT (mark_start_not_biological groups i k .tf) i k).transcript_feature).start_is_biological_start = _
        rw [getT_mark_start_tf groups i k hi hk]
      | intron j =>
        have hj : j < (getT groups i k).introns.length :=
          list_get?_isSome_lt _ j hs
        show (((getT (mark_start_not_biological groups i k (.intron j)) i k).introns.get? j).map _) = _
        rw [getT_mark_start_intron groups i k j hi hk]
        dsimp only
        rw [list_get?_set_self _ j _ hj]
        rfl
      | sl g => simp [handler_feature] at hs
    · cases h with
      | cds => rw [getT_mark_start_cds groups i k hi hk]
      | tf => rw [getT_mark_start_tf groups i k hi hk]
      | intron j => rw [getT_mark_start_intron groups i k j hi hk]
      | sl g => rfl
  | true =>
    have hm : mark_handlers_5p groups i k h true =
        mark_start_not_biological (mark_start_not_biological groups i k h) i k .tf := rfl
    rw [hm]
    have htf := getT_mark_start_tf (mark_start_not_biological groups i k h) i k hi1 hk1
    refine ⟨?_, fun _ => by rw [htf], ?_⟩
    · cases h with
      | cds =>
        obtain ⟨c, hc⟩ := Option.isSome_iff_exists.mp hs
        have hc2 : (getT groups i k).cds = some c := hc
        show ((getT (mark_start_not_biological
          (mark_start_not_biological groups i k .cds) i k .tf) i k).cds).map _ = _
        rw [htf]
        dsimp only
        rw [getT_mark_start_cds groups i k hi hk]
        simp [hc2]
      | tf =>
        show some ((getT (mark_start_not_biological
          (mark_start_not_biological groups i k .tf) i k .tf) i k).transcript_feature).start_is_biological_start = _
        rw [htf]
      | intron j =>
        have hj : j < (getT groups i k).introns.length :=
          list_get?_isSome_lt _ j hs
        show (((getT (mark_start_not_biological
          (mark_start_not_biological groups i k (.intron j)) i k .tf) i k).introns.get? j).map _) = _
        rw [htf]
        dsimp only
        rw [getT_mark_start_intron groups i k j hi hk]
        dsimp only
        rw [list_get?_set_self _ j _ hj]
        rfl
      | sl g => simp [handler_feature] at hs
    · rw [htf]
      dsimp only
      cases h with
      | cds => rw [getT_mark_start_cds groups i k hi hk]
      | tf => rw [getT_mark_start_tf groups i k hi hk]
      | intron j => rw [getT_mark_start_intron groups i k j hi hk]
      | sl g => rfl

theorem mark_handlers_3p_spec (groups : List ImporterGroup) (i k : Nat)
    (hi : i < groups.length) (hk : k < (getGroup groups i).transcripts.length)
    (h : Handler) (mark_tf : Bool)
    (hs : (handler_feature groups i k h).isSome = true) :
    ((handler_feature (mark_handlers_3p groups i k h mark_tf) i k h).map
      (fun f => f.end_is_biological_end) = some false) ∧
    (mark_tf = true →
      (getT (mark_handlers_3p groups i k h mark_tf) i k).transcript_feature.end_is_biological_end
        = false) ∧
    (getT (mark_handlers_3p groups i k h mark_tf) i k).errors =
      (getT groups i k).errors := by
  have hi1 : i < (mark_end_not_biological groups i k h).length := by
    rw [length_mark_end]; exact hi
  have hk1 : k < (getGroup (mark_end_not_biological groups i k h) i).transcripts.length := by
    rw [transcripts_length_mark_end groups i k hi]; exact hk
  cases mark_tf with
  | false =>
    have hm : mark_handlers_3p groups i k h false =
        mark_end_not_biological groups i k h := rfl
    rw [hm]
    refine ⟨?_, fun hcontra => by simp at hcontra, ?_⟩
    · cases h with
      | cds =>
        obtain ⟨c, hc⟩ := Option.isSome_iff_exists.mp hs
        have hc2 : (getT groups i k).cds = some c := hc
        show ((getT (mark_end_not_biological groups i k .cds) i k).cds).map _ = _
        rw [getT_mark_end_cds groups i k hi hk]
        simp [hc2]
      | tf =>
        show some ((getT (mark_end_not_biological groups i k .tf) i k).transcript_feature).end_is_biological_end = _
        rw [getT_mark_end_tf groups i k hi hk]
      | intron j =>
        have hj : j < (getT groups i k).introns.length :=
          list_get?_isSome_lt _ j hs
        show (((getT (mark_end_not_biological groups i k (.intron j)) i k).introns.get? j).map _) = _
        rw [getT_mark_end_intron groups i k j hi hk]
        dsimp only
        rw [list_get?_set_self _ j _ hj]
        rfl
      | sl g => simp [handler_feature] at hs
    · cases h with
      | cds => rw [getT_mark_end_cds groups i k hi hk]
      | tf => rw [getT_mark_end_tf groups i k hi hk]
      | intron j => rw [getT_mark_end_intron groups i k j hi hk]
      | sl g => rfl
  | true =>
    have hm : mark_handlers_3p groups i k h true =
        mark_end_not_biological (mark_end_not_biological groups i k h) i k .tf := rfl
    rw [hm]
    have htf := getT_mark_end_tf (mark_end_not_biological groups i k h) i k hi1 hk1
    refine ⟨?_, fun _ => by rw [htf], ?_⟩
    · cases h with
      | cds =>
        obtain ⟨c, hc⟩ := Option.isSome_iff_exists.mp hs
        have hc2 : (getT groups i k).cds = some c := hc
        show ((getT (mark_end_not_biological
          (mark_end_not_biological groups i k .cds) i k .tf) i k).cds).map _ = _
        rw [htf]
        dsimp only
        rw [getT_mark_end_cds groups i k hi hk]
        simp [hc2]
      | tf =>
        show some ((getT (mark_end_not_biological
          (mark_end_not_biological groups i k .tf) i k .tf) i k).transcript_feature).end_is_biological_end = _
        rw [htf]
      | intron j =>
        have hj : j < (getT groups i k).introns.length :=
          list_get?_isSome_lt _ j hs
        show (((getT (mark_end_not_biological
          (mark_end_not_biological groups i k (.intron j)) i k .tf) i k).introns.get? j).map _) = _
        rw [htf]
        dsimp only
        rw [getT_mark_end_intron groups i k j hi hk]
        dsimp only
        rw [list_get?_set_self _ j _ hj]
        rfl
      | sl g => simp [handler_feature] at hs
    · rw [htf]
      dsimp only
      cases h with
      | cds => rw [getT_mark_end_cds groups i k hi hk]
      | tf => rw [getT_mark_end_tf groups i k hi hk]
      | intron j => rw [getT_mark_end_intron groups i k j hi hk]
      | sl g => rfl

theorem handler_feature_add_error (ctx : GFFErrorHandlingCtx)
    (G : List ImporterGroup) (i k : Nat) (s e : Int) (p : Bool) (ty : String)
    (hi : i < G.length) (hk : k < (getGroup G i).transcripts.length) :
    ∀ h : Handler,
      handler_feature (add_error ctx G i k s e p ty) i k h =
        handler_feature G i k h := by
  have hG : getT (add_error ctx G i k s e p ty) i k =
      { getT G i k with errors := (getT G i k).errors ++
          [mk_error ctx.coord p ty s e] } := by
    rw [show add_error ctx G i k s e p ty = modifyT G i k (fun t =>
      { t with errors := t.errors ++ [mk_error ctx.coord p ty s e] }) from rfl]
    exact getT_modifyT_self G i k _ hi hk
  intro h
  cases h with
  | cds =>
    show (getT (add_error ctx G i k s e p ty) i k).cds = _
    rw [hG]
    rfl
  | tf =>
    show some (getT (add_error ctx G i k s e p ty) i k).transcript_feature = _
    rw [hG]
    rfl
  | intron j =>
    show (getT (add_error ctx G i k s e p ty) i k).introns.get? j = _
    rw [hG]
    rfl
  | sl g => rfl

theorem transcript_feature_add_error (ctx : GFFErrorHandlingCtx)
    (G : List ImporterGroup) (i k : Nat) (s e : Int) (p : Bool) (ty : String)
    (hi : i < G.length) (hk : k < (getGroup G i).transcripts.length) :
    (getT (add_error ctx G i k s e p ty) i k).transcript_feature =
      (getT G i k).transcript_feature := by
  rw [show add_error ctx G i k s e p ty = modifyT G i k (fun t =>
    { t with errors := t.errors ++ [mk_error ctx.coord p ty s e] }) from rfl]
  rw [getT_modifyT_self G i k _ hi hk]

theorem length_mark_handlers_5p (groups : List ImporterGroup) (i k : Nat)
    (h : Handler) (mark_tf : Bool) :
    (mark_handlers_5p groups i k h mark_tf).length = groups.length := by
  cases mark_tf with
  | false => exact length_mark_start groups i k h
  | true =>
    show (mark_start_not_biological (mark_start_not_biological groups i k h) i k .tf).length = _
    rw [length_mark_start, length_mark_start]

theorem length_mark_handlers_3p (groups : List ImporterGroup) (i k : Nat)
    (h : Handler) (mark_tf : Bool) :
    (mark_handlers_3p groups i k h mark_tf).length = groups.length := by
  cases mark_tf with
  | false => exact length_mark_end groups i k h
  | true =>
    show (mark_end_not_biological (mark_end_not_biological groups i k h) i k .tf).length = _
    rw [length_mark_end, length_mark_end]

theorem tlength_mark_handlers_5p (groups : List ImporterGroup) (i k : Nat)
    (hi : i < groups.length) (h : Handler) (mark_tf : Bool) :
    (getGroup (mark_handlers_5p groups i k h mark_tf) i).transcripts.length =
      (getGroup groups i).transcripts.length := by
  cases mark_tf with
  | false => exact transcripts_length_mark_start groups i k hi h
  | true =>
    show (getGroup (mark_start_not_biological
      (mark_start_not_biological groups i k h) i k .tf) i).transcripts.length = _
    rw [transcripts_length_mark_start _ i k (by rw [length_mark_start]; exact hi),
      transcripts_length_mark_start groups i k hi]

theorem tlength_mark_handlers_3p (groups : List ImporterGroup) (i k : Nat)
    (hi : i < groups.length) (h : Handler) (mark_tf : Bool) :
    (getGroup (mark_handlers_3p groups i k h mark_tf) i).transcripts.length =
      (getGroup groups i).transcripts.length := by
  cases mark_tf with
  | false => exact transcripts_length_mark_end groups i k hi h
  | true =>
    show (getGroup (mark_end_not_biological
      (mark_end_not_biological groups i k h) i k .tf) i).transcripts.length = _
    rw [transcripts_length_mark_end _ i k (by rw [length_mark_end]; exact hi),
      transcripts_length_mark_end groups i k hi]

/-- C10: `_add_overlapping_error` with direction `'5p'` (resp. `'3p'`)
clears `start_is_biological_start` (resp. `end_is_biological_end`) on the
handler — whenever it denotes a `FeatureImporter` — and on the
transcript-region feature when `mark_other_handlers = [tf]`, before the
zero-length sequence-edge guard is evaluated: the flags end up `false` even
when the guard suppresses the error feature, in which case the transcript's
error list is left unchanged.  (Calls with a non-`FeatureImporter` handler
and `find_next_non_overlapping=True` pass a `SuperLocusImporter`, which the
`isinstance` test skips; every `FeatureImporter`-handler call site uses
`find_next_non_overlapping=False`, as here.) -/
theorem add_overlapping_error_clears_flags_before_guard
    (ctx : GFFErrorHandlingCtx) (groups : List ImporterGroup) (i k : Nat)
    (h : Handler) (ty : String) (mark_tf : Bool)
    (hi : i < groups.length) (hk : k < (getGroup groups i).transcripts.length)
    (hs : (handler_feature groups i k h).isSome = true) :
    (((handler_feature (add_overlapping_error ctx groups i k h "5p" ty false mark_tf)
        i k h).map (fun f => f.start_is_biological_start) = some false) ∧
      (mark_tf = true →
        (getT (add_overlapping_error ctx groups i k h "5p" ty false mark_tf)
          i k).transcript_feature.start_is_biological_start = false) ∧
      (zero_len_coords_at_sequence_edge ctx.is_plus_strand
          (anchor_5p ctx groups (getGroup groups i).super_locus.coord i)
          (handler_start groups i k h) "5p"
          (getGroup groups i).super_locus.coord = true →
        (getT (add_overlapping_error ctx groups i k h "5p" ty false mark_tf)
          i k).errors = (getT groups i k).errors)) ∧
    (((handler_feature (add_overlapping_error ctx groups i k h "3p" ty false mark_tf)
        i k h).map (fun f => f.end_is_biological_end) = some false) ∧
      (mark_tf = true →
        (getT (add_overlapping_error ctx groups i k h "3p" ty false mark_tf)
          i k).transcript_feature.end_is_biological_end = false) ∧
      (zero_len_coords_at_sequence_edge ctx.is_plus_strand
          (handler_end groups i k h)
          (anchor_3p ctx groups (getGroup groups i).super_locus.coord i) "3p"
          (getGroup groups i).super_locus.coord = true →
        (getT (add_overlapping_error ctx groups i k h "3p" ty false mark_tf)
          i k).errors = (getT groups i k).errors)) := by
  obtain ⟨hm1, hm2, hm3⟩ := mark_handlers_5p_spec groups i k hi hk h mark_tf hs
  obtain ⟨hn1, hn2, hn3⟩ := mark_handlers_3p_spec groups i k hi hk h mark_tf hs
  have hi5 : i < (mark_handlers_5p groups i k h mark_tf).length := by
    rw [length_mark_handlers_5p]; exact hi
  have hk5 : k < (getGroup (mark_handlers_5p groups i k h mark_tf) i).transcripts.length := by
    rw [tlength_mark_handlers_5p groups i k hi]; exact hk
  have hi3 : i < (mark_handlers_3p groups i k h mark_tf).length := by
    rw [length_mark_handlers_3p]; exact hi
  have hk3 : k < (getGroup (mark_handlers_3p groups i k h mark_tf) i).transcripts.length := by
    rw [tlength_mark_handlers_3p groups i k hi]; exact hk
  have hred5 : add_overlapping_error ctx groups i k h "5p" ty false mark_tf =
      (if zero_len_coords_at_sequence_edge ctx.is_plus_strand
          (anchor_5p ctx groups (getGroup groups i).super_locus.coord i)
          (handler_start groups i k h) "5p"
          (getGroup groups i).super_locus.coord = true then
        mark_handlers_5p groups i k h mark_tf
      else
        add_error ctx (mark_handlers_5p groups i k h mark_tf) i k
          (anchor_5p ctx groups (getGroup groups i).super_locus.coord i)
          (handler_start groups i k h) ctx.is_plus_strand ty) := rfl
  have hred3 : add_overlapping_error ctx groups i k h "3p" ty false mark_tf =
      (if zero_len_coords_at_sequence_edge ctx.is_plus_strand
          (handler_end groups i k h)
          (anchor_3p ctx groups (getGroup groups i).super_locus.coord i) "3p"
          (getGroup groups i).super_locus.coord = true then
        mark_handlers_3p groups i k h mark_tf
      else
        add_error ctx (mark_handlers_3p groups i k h mark_tf) i k
          (handler_end groups i k h)
          (anchor_3p ctx groups (getGroup groups i).super_locus.coord i)
          ctx.is_plus_strand ty) := rfl
  constructor
  · rw [hred5]
    by_cases hg : zero_len_coords_at_sequence_edge ctx.is_plus_strand
        (anchor_5p ctx groups (getGroup groups i).super_locus.coord i)
        (handler_start groups i k h) "5p"
        (getGroup groups i).super_locus.coord = true
    · rw [if_pos hg]
      exact ⟨hm1, hm2, fun _ => hm3⟩
    · rw [if_neg hg]
      refine ⟨?_, ?_, fun hcontra => absurd hcontra hg⟩
      · rw [handler_feature_add_error ctx _ i k _ _ _ _ hi5 hk5]
        exact hm1
      · intro hmt
        rw [transcript_feature_add_error ctx _ i k _ _ _ _ hi5 hk5]
        exact hm2 hmt
  · rw [hred3]
    by_cases hg : zero_len_coords_at_sequence_edge ctx.is_plus_strand
        (handler_end groups i k h)
        (anchor_3p ctx groups (getGroup groups i).super_locus.coord i) "3p"
        (getGroup groups i).super_locus.coord = true
    · rw [if_pos hg]
      exact ⟨hn1, hn2, fun _ => hn3⟩
    · rw [if_neg hg]
      refine ⟨?_, ?_, fun hcontra => absurd hcontra hg⟩
      · rw [handler_feature_add_error ctx _ i k _ _ _ _ hi3 hk3]
        exact hn1
      · intro hmt
        rw [transcript_feature_add_error ctx _ i k _ _ _ _ hi3 hk3]
        exact hn2 hmt

def c10_ctx : GFFErrorHandlingCtx :=
  { is_plus_strand := true, coord := c5_coordinate, min_intron_length := 20 }

set_option maxRecDepth 100000 in
theorem add_overlapping_error_clears_flags_before_guard_witness :
    (0 < [c5_group].length ∧
      0 < (getGroup [c5_group] 0).transcripts.length ∧
      (handler_feature [c5_group] 0 0 .cds).isSome = true) ∧
    (((handler_feature (add_overlapping_error c10_ctx [c5_group] 0 0 .cds "5p"
        MISSING_UTR_5P false true) 0 0 .cds).map
        (fun f => f.start_is_biological_start) = some false) ∧
      (true = true →
        (getT (add_overlapping_error c10_ctx [c5_group] 0 0 .cds "5p"
          MISSING_UTR_5P false true) 0 0).transcript_feature.start_is_biological_start
          = false) ∧
      (zero_len_coords_at_sequence_edge c10_ctx.is_plus_strand
          (anchor_5p c10_ctx [c5_group] (getGroup [c5_group] 0).super_locus.coord 0)
          (handler_start [c5_group] 0 0 .cds) "5p"
          (getGroup [c5_group] 0).super_locus.coord = true →
        (getT (add_overlapping_error c10_ctx [c5_group] 0 0 .cds "5p"
          MISSING_UTR_5P false true) 0 0).errors = (getT [c5_group] 0 0).errors)) ∧
    (((handler_feature (add_overlapping_error c10_ctx [c5_group] 0 0 .cds "3p"
        MISSING_UTR_5P false true) 0 0 .cds).map
        (fun f => f.end_is_biological_end) = some false) ∧
      (true = true →
        (getT (add_overlapping_error c10_ctx [c5_group] 0 0 .cds "3p"
          MISSING_UTR_5P false true) 0 0).transcript_feature.end_is_biological_end
          = false) ∧
      (zero_len_coords_at_sequence_edge c10_ctx.is_plus_strand
          (handler_end [c5_group] 0 0 .cds)
          (anchor_3p c10_ctx [c5_group] (getGroup [c5_group] 0).super_locus.coord 0)
          "3p" (getGroup [c5_group] 0).super_locus.coord = true →
        (getT (add_overlapping_error c10_ctx [c5_group] 0 0 .cds "3p"
          MISSING_UTR_5P false true) 0 0).errors = (getT [c5_group] 0 0).errors)) :=
  ⟨⟨by decide, by decide, by decide⟩,
    (add_overlapping_error_clears_flags_before_guard c10_ctx [c5_group] 0 0 .cds
      MISSING_UTR_5P true (by decide) (by decide) (by decide)).1,
    (add_overlapping_error_clears_flags_before_guard c10_ctx [c5_group] 0 0 .cds
      MISSING_UTR_5P true (by decide) (by decide) (by decide)).2⟩

/-! ## GFF entries (`dustdas.gffhelper` records, as the importer reads them) -/

/-- One parsed GFF entry.  `type`, `seqid`, `start` as the organizer reads
them; `attributes` holds each GFF attribute as (tag, value list) — the
importer's `attrib_filter(tag='protein_id')` selects by tag and a
`GFFAttribute`'s `.value` is a list; `parents` is `get_Parent()`: `none` when
the Parent attribute is absent, otherwise the list of parent ids.  Fields no
claim reads (`end`, `score`, `phase`, `strand`, `source`) are omitted. -/
structure GffEntry where
  type : String
  seqid : String := ""
  start : Int := 0
  attributes : List (String × List String) := []
  parents : Option (List String) := none
deriving DecidableEq

/-! ## Claim C8 (`OrganizedGeenuffImporterGroup._get_protein_id_from_cds_*`) -/

/-- `_get_protein_id_from_cds_entry`.  `.ok none` = Python `None`;
`.error` = the uncaught exception the interpreter raises on that path:
`get_Parent()` returning `None` makes `len(protein_id)` a `TypeError`, more
than one candidate raises `ValueError('indeterminate single protein id')`,
and a multi-valued `protein_id` attribute fails the `assert`. -/
def get_protein_id_from_cds_entry (e : GffEntry) : Except String (Option String) :=
  match e.attributes.filter (fun a => a.1 = "protein_id") with
  | [] =>
    match e.parents with
    | none => Except.error "TypeError: object of type NoneType has no len()"
    | some [p] => Except.ok (some p)
    | some [] => Except.ok none
    | some _ => Except.error "ValueError: indeterminate single protein id"
  | [a] =>
    match a.2 with
    | [v] => Except.ok (some v)
    | _ => Except.error "AssertionError: len(protein_id) == 1"
  | _ => Except.error "ValueError: indeterminate single protein id"

/-- The `protein_ids` set built by `_get_protein_id_from_cds_list`,
as an insertion-ordered list without duplicates (CPython's set iteration
order is unspecified; only emptiness and cardinality matter below). -/
def collect_protein_ids : List GffEntry → List String →
    Except String (List String)
  | [], acc => Except.ok acc
  | e :: es, acc =>
    match get_protein_id_from_cds_entry e with
    | Except.error m => Except.error m
    | Except.ok none => collect_protein_ids es acc
    | Except.ok (some p) =>
      collect_protein_ids es (if p ∈ acc then acc else acc ++ [p])

/-- `_get_protein_id_from_cds_list`: the Bool is whether the
`len(protein_ids) != 1` warning was logged; `protein_ids.pop()` on the empty
set raises `KeyError` (the commented-out `raise ValueError` shows the
intended non-fatal handling). -/
def get_protein_id_from_cds_list (l : List GffEntry) :
    Except String (String × Bool) :=
  match collect_protein_ids l [] with
  | Except.error m => Except.error m
  | Except.ok ids =>
    match ids with
    | [] => Except.error "KeyError: pop from an empty set"
    | x :: _ => Except.ok (x, decide (ids.length ≠ 1))

/-- C8 counterexample: a CDS entry with no `protein_id` attribute and an
empty parent list yields zero distinct protein ids, and
`_get_protein_id_from_cds_list` raises `KeyError` instead of logging and
continuing; a CDS entry with two parent references raises
`ValueError('indeterminate single protein id')` — both abort the run. -/
theorem protein_id_counterexample :
    get_protein_id_from_cds_list
        [{ type := "CDS", parents := some [] }] =
      Except.error "KeyError: pop from an empty set" ∧
    get_protein_id_from_cds_entry
        { type := "CDS", parents := some ["t1", "t2"] } =
      Except.error "ValueError: indeterminate single protein id" := by
  exact ⟨rfl, rfl⟩

/-- C8 (amended): more than one distinct protein id across the CDS entries is
logged (`warned = true`) and building continues with an arbitrary member of
the set; but zero distinct ids makes `protein_ids.pop()` raise `KeyError`,
and a single CDS entry whose ids are indeterminate (no `protein_id`
attribute and several parent references) raises `ValueError` — each of those
aborts the group parse. -/
theorem protein_id_spec :
    (∀ (l : List GffEntry) (ids : List String),
      collect_protein_ids l [] = Except.ok ids → 2 ≤ ids.length →
      ∃ x, get_protein_id_from_cds_list l = Except.ok (x, true)) ∧
    (∀ (l : List GffEntry),
      collect_protein_ids l [] = Except.ok [] →
      get_protein_id_from_cds_list l = Except.error "KeyError: pop from an empty set") ∧
    (∀ (e : GffEntry) (ps : List String),
      e.attributes.filter (fun a => a.1 = "protein_id") = [] →
      e.parents = some ps → 2 ≤ ps.length →
      get_protein_id_from_cds_entry e =
        Except.error "ValueError: indeterminate single protein id") := by
  refine ⟨?_, ?_, ?_⟩
  · intro l ids hcol hlen
    unfold get_protein_id_from_cds_list
    rw [hcol]
    match ids, hlen with
    | x :: y :: rest, _ =>
      refine ⟨x, ?_⟩
      show Except.ok (x, decide ((x :: y :: rest).length ≠ 1)) =
        Except.ok (x, true)
      rw [decide_eq_true (by simp : (x :: y :: rest).length ≠ 1)]
  · intro l hcol
    unfold get_protein_id_from_cds_list
    rw [hcol]
  · intro e ps hfil hpar hlen
    unfold get_protein_id_from_cds_entry
    rw [hfil, hpar]
    match ps, hlen with
    | p :: q :: rest, _ => rfl

def c8_witness_entries : List GffEntry :=
  [{ type := "CDS", parents := some ["p1"] },
   { type := "CDS", parents := some ["p2"] }]

theorem protein_id_spec_witness :
    (collect_protein_ids c8_witness_entries [] = Except.ok ["p1", "p2"] ∧
      2 ≤ (["p1", "p2"] : List String).length) ∧
    (∃ x, get_protein_id_from_cds_list c8_witness_entries = Except.ok (x, true)) :=
  ⟨⟨rfl, by decide⟩,
    protein_id_spec.1 c8_witness_entries ["p1", "p2"] rfl (by decide)⟩

/-! ## Claim C7 (`OrganizedGFFEntries.load_organized_entries` and
`OrganizedGFFEntryGroup.add_gff_entry_group`) -/

/-- Modelled from the spec: `in_enum_values` lives in
`geenuff/base/helpers.py`, which is not under `src/`: membership of an entry
type string among an enum's values. -/
def in_enum_values (t : String) (vals : List String) : Bool :=
  vals.any fun v => v = t

/-- The values of `types.SuperLocusAll` ("gene level"). -/
def SuperLocusAll_values : List String :=
  ["coding_gene", "non_coding_gene", "pseudogene", "operon", "gene"]

/-- The values of `types.TranscriptLevelAll`. -/
def TranscriptLevelAll_values : List String :=
  ["mRNA", "tRNA", "rRNA", "miRNA", "snoRNA", "snRNA", "SRP_RNA", "lnc_RNA",
   "pre_miRNA", "RNase_MRP_RNA", "transcript", "primary_transcript",
   "pseudogenic_transcript"]

/-- The exon-level classification referenced as `types.ExonLevel` in
importer.py; this src's `types.py` does not define an `ExonLevel` enum, so
its values are modelled from the `EXON` constant and spec §4.2's fixed type
classification. -/
def ExonLevel_values : List String := ["exon"]

/-- The CDS-level classification referenced as `types.CDSLevel`, modelled
like `ExonLevel_values` from the `CDS` constant. -/
def CDSLevel_values : List String := ["CDS"]

/-- `OrganizedGFFEntries.load_organized_entries`, as the list of per-gene
entry groups in stream order.  The first entry opens the first group whether
or not it is gene-level; each further gene-level entry closes the current
group and opens a new one.  (The source files the groups into a dict keyed
by seqid; `add_gff` then iterates all groups of all seqids in this same
order, so the keying is dropped here.) -/
def load_organized_entries (entries : List GffEntry) : List (List GffEntry) :=
  match entries with
  | [] => []
  | first :: rest =>
    let r := rest.foldl
      (fun (acc : List (List GffEntry) × List GffEntry) entry =>
        if in_enum_values entry.type SuperLocusAll_values then
          (acc.1 ++ [acc.2], [entry])
        else (acc.1, acc.2 ++ [entry]))
      ([], [first])
    r.1 ++ [r.2]

/-- One value of the organizer's `entries['transcripts']` dict: the transcript
entry with its exon and CDS lists. -/
structure TranscriptBucket where
  transcript : GffEntry
  exons : List GffEntry := []
  cds : List GffEntry := []
deriving DecidableEq

/-- The `self.entries` state of `OrganizedGFFEntryGroup`, plus the entries
dropped with a warning: `dropped_no_transcript` are those hitting the
`'Ignoring {type} without transcript'` warning, `dropped_unexpected` those
hitting `'Found unexpected entry type'`. -/
structure OrganizedEntries where
  super_locus : Option GffEntry := none
  transcripts : List TranscriptBucket := []
  dropped_no_transcript : List GffEntry := []
  dropped_unexpected : List GffEntry := []
deriving DecidableEq

def modify_last {α : Type _} (f : α → α) : List α → List α
  | [] => []
  | [x] => [f x]
  | x :: xs => x :: modify_last f xs

/-- One iteration of the `for entry in list(entries)` loop of
`add_gff_entry_group`.  `latest_transcript` is the last-opened bucket
(`is not None` ⟺ the bucket list is non-empty); a second gene-level entry
fails the `assert 'super_locus' not in self.entries`. -/
def add_entry_step (st : OrganizedEntries) (entry : GffEntry) :
    Except String OrganizedEntries :=
  if in_enum_values entry.type SuperLocusAll_values then
    match st.super_locus with
    | some _ => Except.error "AssertionError: super_locus not in self.entries"
    | none => Except.ok { st with super_locus := some entry }
  else if in_enum_values entry.type TranscriptLevelAll_values then
    Except.ok { st with transcripts := st.transcripts ++ [{ transcript := entry }] }
  else
    match st.transcripts with
    | [] =>
      Except.ok { st with
        dropped_no_transcript := st.dropped_no_transcript ++ [entry] }
    | _ =>
      if in_enum_values entry.type ExonLevel_values then
        Except.ok { st with
          transcripts := modify_last
            (fun b => { b with exons := b.exons ++ [entry] }) st.transcripts }
      else if in_enum_values entry.type CDSLevel_values then
        Except.ok { st with
          transcripts := modify_last
            (fun b => { b with cds := b.cds ++ [entry] }) st.transcripts }
      else
        Except.ok { st with
          dropped_unexpected := st.dropped_unexpected ++ [entry] }

def add_entries : List GffEntry → OrganizedEntries →
    Except String OrganizedEntries
  | [], st => Except.ok st
  | e :: es, st =>
    match add_entry_step st e with
    | Except.error m => Except.error m
    | Except.ok st2 => add_entries es st2

/-- `OrganizedGFFEntryGroup.add_gff_entry_group`: organize one entry group,
then read `self.entries['super_locus']` for the coordinate (a `KeyError`
when no gene-level entry was seen), then sort each bucket's exon and CDS
lists ascending by raw `start` (Python's stable sort = stable insertion sort
on a strict key comparison). -/
def add_gff_entry_group (entries : List GffEntry) :
    Except String OrganizedEntries :=
  match add_entries entries {} with
  | Except.error m => Except.error m
  | Except.ok st =>
    match st.super_locus with
    | none => Except.error "KeyError: super_locus"
    | some _ =>
      Except.ok { st with transcripts := st.transcripts.map fun b =>
        { b with
          exons := b.exons.insertionSort fun a c => a.start < c.start,
          cds := b.cds.insertionSort fun a c => a.start < c.start } }

def organize_groups : List (List GffEntry) → Except String (List OrganizedEntries)
  | [] => Except.ok []
  | g :: gs =>
    match add_gff_entry_group g with
    | Except.error m => Except.error m
    | Except.ok o =>
      match organize_groups gs with
      | Except.error m => Except.error m
      | Except.ok os => Except.ok (o :: os)

/-- The organizer pass of `ImportController.add_gff`: group the entry stream,
then build an `OrganizedGFFEntryGroup` for every group in order; the first
uncaught exception aborts the run. -/
def process_stream (entries : List GffEntry) :
    Except String (List OrganizedEntries) :=
  organize_groups (load_organized_entries entries)

def c7_stream : List GffEntry :=
  [{ type := "exon", seqid := "s" }, { type := "gene", seqid := "s" },
   { type := "mRNA", seqid := "s" }, { type := "exon", seqid := "s" }]

/-- C7 counterexample: an exon entry arriving before the first gene-level
entry of the stream is collected into a leading group that has no super
locus; processing that group raises `KeyError` (at
`self.entries['super_locus']`), aborting the run instead of dropping the
entry with a warning and continuing. -/
theorem organizer_drop_counterexample :
    process_stream c7_stream = Except.error "KeyError: super_locus" ∧
    load_organized_entries c7_stream =
      [[{ type := "exon", seqid := "s" }],
       [{ type := "gene", seqid := "s" }, { type := "mRNA", seqid := "s" },
        { type := "exon", seqid := "s" }]] := by
  exact ⟨rfl, by decide⟩

theorem add_entry_step_no_gene (st : OrganizedEntries) (e : GffEntry)
    (h : in_enum_values e.type SuperLocusAll_values = false) :
    ∃ st2, add_entry_step st e = Except.ok st2 ∧
      st2.super_locus = st.super_locus ∧
      (∀ x ∈ st.dropped_no_transcript, x ∈ st2.dropped_no_transcript) := by
  unfold add_entry_step
  rw [h]
  simp only [Bool.false_eq_true, if_false]
  by_cases ht : in_enum_values e.type TranscriptLevelAll_values = true
  · rw [if_pos ht]
    exact ⟨_, rfl, rfl, fun x hx => hx⟩
  · rw [if_neg ht]
    cases hb : st.transcripts with
    | nil => exact ⟨_, rfl, rfl, fun x hx => List.mem_append.mpr (Or.inl hx)⟩
    | cons b bs =>
      by_cases he : in_enum_values e.type ExonLevel_values = true
      · rw [if_pos he]
        exact ⟨_, rfl, rfl, fun x hx => hx⟩
      · rw [if_neg he]
        by_cases hc : in_enum_values e.type CDSLevel_values = true
        · rw [if_pos hc]
          exact ⟨_, rfl, rfl, fun x hx => hx⟩
        · rw [if_neg hc]
          exact ⟨_, rfl, rfl, fun x hx => hx⟩

theorem add_entries_no_gene :
    ∀ (es : List GffEntry) (st : OrganizedEntries),
      (∀ e ∈ es, in_enum_values e.type SuperLocusAll_values = false) →
      ∃ st2, add_entries es st = Except.ok st2 ∧
        st2.super_locus = st.super_locus ∧
        (∀ x ∈ st.dropped_no_transcript, x ∈ st2.dropped_no_transcript) := by
  intro es
  induction es with
  | nil => intro st _; exact ⟨st, rfl, rfl, fun x hx => hx⟩
  | cons e es ih =>
    intro st hall
    obtain ⟨st1, hstep, hsl1, hmem1⟩ :=
      add_entry_step_no_gene st e (hall e (List.mem_cons_self e es))
    obtain ⟨st2, hrec, hsl2, hmem2⟩ :=
      ih st1 fun x hx => hall x (List.mem_cons_of_mem e hx)
    refine ⟨st2, ?_, hsl2.trans hsl1, fun x hx => hmem2 x (hmem1 x hx)⟩
    unfold add_entries
    rw [hstep]
    exact hrec

theorem add_entry_step_orphan_child (st : OrganizedEntries) (e : GffEntry)
    (hg : in_enum_values e.type SuperLocusAll_values = false)
    (ht : in_enum_values e.type TranscriptLevelAll_values = false)
    (hb : st.transcripts = []) :
    add_entry_step st e = Except.ok { st with
      dropped_no_transcript := st.dropped_no_transcript ++ [e] } := by
  unfold add_entry_step
  rw [hg, ht]
  simp only [Bool.false_eq_true, if_false]
  rw [hb]

theorem add_entries_orphan_children :
    ∀ (pre : List GffEntry) (st : OrganizedEntries),
      (∀ e ∈ pre, in_enum_values e.type SuperLocusAll_values = false ∧
        in_enum_values e.type TranscriptLevelAll_values = false) →
      st.transcripts = [] →
      ∃ st2, add_entries pre st = Except.ok st2 ∧
        st2.super_locus = st.super_locus ∧
        st2.transcripts = [] ∧
        st2.dropped_no_transcript = st.dropped_no_transcript ++ pre := by
  intro pre
  induction pre with
  | nil => intro st _ hb; exact ⟨st, rfl, rfl, hb, by simp⟩
  | cons e pre ih =>
    intro st hall hb
    have hstep := add_entry_step_orphan_child st e
      (hall e (List.mem_cons_self e pre)).1 (hall e (List.mem_cons_self e pre)).2 hb
    obtain ⟨st2, hrec, hsl, hb2, hdrop⟩ :=
      ih { st with dropped_no_transcript := st.dropped_no_transcript ++ [e] }
        (fun x hx => hall x (List.mem_cons_of_mem e hx)) hb
    refine ⟨st2, ?_, hsl, hb2, ?_⟩
    · unfold add_entries
      rw [hstep]
      exact hrec
    · rw [hdrop]
      simp

theorem add_entries_append :
    ∀ (a b : List GffEntry) (st : OrganizedEntries),
      add_entries (a ++ b) st =
        (match add_entries a st with
          | Except.error m => Except.error m
          | Except.ok st2 => add_entries b st2) := by
  intro a
  induction a with
  | nil => intro b st; rfl
  | cons e a ih =>
    intro b st
    rw [List.cons_append]
    rw [show add_entries (e :: (a ++ b)) st = (match add_entry_step st e with
      | Except.error m => Except.error m
      | Except.ok st2 => add_entries (a ++ b) st2) from rfl]
    rw [show add_entries (e :: a) st = (match add_entry_step st e with
      | Except.error m => Except.error m
      | Except.ok st2 => add_entries a st2) from rfl]
    cases add_entry_step st e with
    | error m => rfl
    | ok st2 => exact ih b st2

/-- C7 (amended): within an entry group opened by a gene-level entry, child
entries arriving before any transcript-level entry are dropped with a logged
warning and processing continues (the group organizes successfully); but an
entry group containing no gene-level entry at all — which
`load_organized_entries` produces from any entries preceding the stream's
first gene-level entry — makes `add_gff_entry_group` raise `KeyError` at
`self.entries['super_locus']`, aborting the run rather than continuing. -/
theorem organizer_drop_spec :
    (∀ (g : GffEntry) (rest : List GffEntry),
      in_enum_values g.type SuperLocusAll_values = true →
      (∀ e ∈ rest, in_enum_values e.type SuperLocusAll_values = false) →
      ∃ o, add_gff_entry_group (g :: rest) = Except.ok o ∧
        ∀ e ∈ rest.takeWhile
          (fun e => !(in_enum_values e.type TranscriptLevelAll_values)),
          e ∈ o.dropped_no_transcript) ∧
    (∀ entries : List GffEntry,
      (∀ e ∈ entries, in_enum_values e.type SuperLocusAll_values = false) →
      add_gff_entry_group entries = Except.error "KeyError: super_locus") := by
  constructor
  · intro g rest hg hng
    have hstep : add_entry_step {} g =
        Except.ok { super_locus := some g } := by
      unfold add_entry_step
      rw [hg]
      rfl
    have hsplit : rest.takeWhile
          (fun e => !(in_enum_values e.type TranscriptLevelAll_values)) ++
        rest.dropWhile
          (fun e => !(in_enum_values e.type TranscriptLevelAll_values)) = rest :=
      List.takeWhile_append_dropWhile
        (fun (e : GffEntry) => !(in_enum_values e.type TranscriptLevelAll_values)) rest
    obtain ⟨st2, h2, hsl2, hb2, hdrop2⟩ := add_entries_orphan_children
      (rest.takeWhile (fun e => !(in_enum_values e.type TranscriptLevelAll_values)))
      { super_locus := some g }
      (fun e he => ⟨hng e (by
          exact (List.takeWhile_sublist _).subset he),
        by
          have := List.mem_takeWhile_imp he
          simpa using this⟩)
      rfl
    obtain ⟨st3, h3, hsl3, hmem3⟩ := add_entries_no_gene
      (rest.dropWhile (fun e => !(in_enum_values e.type TranscriptLevelAll_values)))
      st2
      (fun e he => hng e ((List.dropWhile_sublist _).subset he))
    have h4 : add_entries rest ({ super_locus := some g } : OrganizedEntries) =
        Except.ok st3 := by
      conv_lhs => rw [← hsplit]
      rw [add_entries_append, h2]
      exact h3
    have hall : add_entries (g :: rest) {} = Except.ok st3 := by
      rw [show add_entries (g :: rest) ({} : OrganizedEntries) =
        (match add_entry_step {} g with
          | Except.error m => Except.error m
          | Except.ok st2 => add_entries rest st2) from rfl]
      rw [hstep]
      exact h4
    have hsl : st3.super_locus = some g := by
      rw [hsl3, hsl2]
    obtain ⟨sl3, tr3, dnt3, du3⟩ := st3
    rw [show sl3 = some g from hsl] at hall
    refine ⟨⟨some g,
        tr3.map fun b => ⟨b.transcript,
          b.exons.insertionSort fun a c => a.start < c.start,
          b.cds.insertionSort fun a c => a.start < c.start⟩,
        dnt3, du3⟩, ?_, ?_⟩
    · unfold add_gff_entry_group
      rw [hall]
    · intro e he
      show e ∈ dnt3
      refine hmem3 e ?_
      rw [hdrop2]
      simpa using he
  · intro entries hng
    obtain ⟨st2, h2, hsl2, _⟩ := add_entries_no_gene entries {} hng
    obtain ⟨sl2, tr2, dnt2, du2⟩ := st2
    rw [show sl2 = none from hsl2] at h2
    unfold add_gff_entry_group
    rw [h2]

/-- Witness for `organizer_drop_spec`: a group led by a gene entry whose
exon arrives before the mRNA organizes successfully with the early exon
dropped into `dropped_no_transcript`, while a gene-free group raises
`KeyError: super_locus`. -/
theorem organizer_drop_spec_witness :
    (∃ o, add_gff_entry_group
        [{ type := "gene", seqid := "s" }, { type := "exon", seqid := "s" },
         { type := "mRNA", seqid := "s" }] = Except.ok o ∧
      ∀ e ∈ ([{ type := "exon", seqid := "s" },
              { type := "mRNA", seqid := "s" }] : List GffEntry).takeWhile
          (fun e => !(in_enum_values e.type TranscriptLevelAll_values)),
        e ∈ o.dropped_no_transcript) ∧
    add_gff_entry_group [{ type := "exon", seqid := "s" }] =
      Except.error "KeyError: super_locus" :=
  ⟨organizer_drop_spec.1 { type := "gene", seqid := "s" }
      [{ type := "exon", seqid := "s" }, { type := "mRNA", seqid := "s" }]
      (by decide) (by decide),
   organizer_drop_spec.2 [{ type := "exon", seqid := "s" }] (by decide)⟩
